import Mathlib

/-!
Verification development for the Avatar-reel-creator editorial pipeline.

The TypeScript sources are shallowly embedded as Lean functions:
* JS `number` frame counts become `Int` (JS subtraction can go negative);
  scores, weights and probabilities computed with real division become `ℚ`.
  `Math.round` on a rational is Mathlib's `round` (both are `⌊x + 1/2⌋`).
* JS strings are Lean `String`s; only ASCII data flows through the pipeline,
  so `toLower`/`toUpper` agree with `toLowerCase`/`toUpperCase`.
* `Array.prototype.sort` is modelled by `List.mergeSort` (a sorted permutation,
  which is all the source relies on).
* The ambient `Math.random()` calls of the layout planner are modelled by
  threading an explicit stream of draws (a `List ℚ`) through the function.
-/

namespace AvatarReel

/-! ## JS string primitives

`s.split(/\s+/)` splits on maximal whitespace runs and keeps an empty piece
at either end when the string starts/ends with whitespace; splitting the
empty string yields `[""]`.  We model it below from maximal "kept" runs. -/

/-- Maximal runs of characters satisfying `keep`, scanning left to right.
`cur` is the current (reversed) run being accumulated. -/
def runsAux (keep : Char → Bool) : List Char → List Char → List (List Char)
  | [], cur => if cur.isEmpty then [] else [cur.reverse]
  | c :: cs, cur =>
    if keep c then runsAux keep cs (c :: cur)
    else if cur.isEmpty then runsAux keep cs []
    else cur.reverse :: runsAux keep cs []

/-- Maximal runs of characters satisfying `keep` in a string. -/
def charRuns (keep : Char → Bool) (s : String) : List (List Char) :=
  runsAux keep s.data []

/-- JS `s.split(/\s+/)`. -/
def jsSplitWs (s : String) : List String :=
  match s.data with
  | [] => [""]
  | c :: cs =>
    (if c.isWhitespace then [String.mk []] else []) ++
      (runsAux (fun ch => !ch.isWhitespace) (c :: cs) []).map (fun l => String.mk l) ++
      (if (cs.getLastD c).isWhitespace then [String.mk []] else [])

/-- JS `s.split(/\s+/).length`, the word-count measure used by the script
parser and the asset matcher. -/
def jsWordCount (s : String) : Nat :=
  (jsSplitWs s).length

/-- Whether `pre` is an initial run of `l`. -/
def leadsWith : List Char → List Char → Bool
  | [], _ => true
  | _ :: _, [] => false
  | a :: as, b :: bs => a = b && leadsWith as bs

/-- Whether `needle` occurs contiguously inside `hay`. -/
def containsSub (needle : List Char) : List Char → Bool
  | [] => needle.isEmpty
  | c :: cs => leadsWith needle (c :: cs) || containsSub needle cs

/-- JS `hay.includes(needle)`. -/
def jsIncludes (hay needle : String) : Bool :=
  containsSub needle.data hay.data

/-- JS `toLowerCase` for the ASCII data this pipeline handles: `Char.toLower`
mapped over the characters (Lean's `String.toLower` itself, but avoiding the
byte-position iteration that the kernel cannot evaluate). -/
def jsToLower (s : String) : String := String.mk (s.data.map Char.toLower)

/-- JS `toUpperCase` for ASCII data. -/
def jsToUpper (s : String) : String := String.mk (s.data.map Char.toUpper)

/-- JS `Math.min(a, b)` (kernel-reducible, unlike the order-theoretic `min`). -/
def jsMin (a b : ℚ) : ℚ := if a ≤ b then a else b

/-- JS `Math.max(a, b)`. -/
def jsMax (a b : ℚ) : ℚ := if a ≤ b then b else a

theorem jsMin_eq_min (a b : ℚ) : jsMin a b = min a b := by
  unfold jsMin
  by_cases h : a ≤ b
  · rw [if_pos h, min_eq_left h]
  · rw [if_neg h, min_eq_right (le_of_not_le h)]

theorem jsMax_eq_max (a b : ℚ) : jsMax a b = max a b := by
  unfold jsMax
  by_cases h : a ≤ b
  · rw [if_pos h, max_eq_right h]
  · rw [if_neg h, max_eq_left (le_of_not_le h)]

/-- Deduplication keeping the first occurrence, i.e. JS `[...new Set(xs)]`. -/
def dedupFirst : List String → List String
  | [] => []
  | x :: xs => x :: dedupFirst (xs.filter (fun y => y ≠ x))
termination_by l => l.length
decreasing_by
  simp only [List.length_cons]
  exact Nat.lt_succ_of_le (List.length_filter_le _ _)

/-! ## Timing utilities (`src/utils/timing.ts`) -/

/-- Vowels counted by the syllable estimator's `/[aeiouy]+/g`. -/
def isVowelY (c : Char) : Bool :=
  c = 'a' || c = 'e' || c = 'i' || c = 'o' || c = 'u' || c = 'y'

/-- Vowels tested by the `-le` suffix rule's `/[aeiou]/`. -/
def isVowelNoY (c : Char) : Bool :=
  c = 'a' || c = 'e' || c = 'i' || c = 'o' || c = 'u'

/-- `estimateSyllables(word)`: vowel-group count with silent-`e` and `-le`
heuristics, minimum 1 (`timing.ts` lines 56–75). -/
def estimateSyllables (word : String) : Nat :=
  let cleaned : List Char :=
    ((jsToLower word).data).filter (fun c => 'a' ≤ c && c ≤ 'z')
  if cleaned.length ≤ 3 then 1
  else
    let runs := (runsAux isVowelY cleaned []).length
    let count := if runs = 0 then 1 else runs
    let count :=
      if decide (cleaned.getLastD ' ' = 'e') && decide (count > 1)
      then count - 1 else count
    let count :=
      if leadsWith ['e', 'l'] cleaned.reverse && decide (cleaned.length > 2)
          && !isVowelNoY (cleaned.getD (cleaned.length - 3) ' ')
      then count + 1 else count
    max count 1

/-- One per-word frame span produced by `distributeFramesAcrossWords`. -/
structure WordTiming where
  word : String
  startFrame : Int
  endFrame : Int
  deriving DecidableEq

/-- The allocation loop of `distributeFramesAcrossWords`: each pair carries a
word and its syllable weight; the last word's end is forced to `totalFrames`. -/
def distributeAux (totalFrames : Int) (totalWeight : Nat) :
    List (String × Nat) → Int → List WordTiming
  | [], _ => []
  | (w, wt) :: rest, currentFrame =>
    let wordFrames : Int := round (((wt : ℚ) / (totalWeight : ℚ)) * (totalFrames : ℚ))
    let endFrame := if rest.isEmpty then totalFrames else currentFrame + wordFrames
    ⟨w, currentFrame, endFrame⟩ :: distributeAux totalFrames totalWeight rest endFrame

/-- `distributeFramesAcrossWords(words, totalFrames, fps)`
(`timing.ts` lines 80–108). -/
def distributeFramesAcrossWords (words : List String) (totalFrames : Int)
    (_fps : Int) : List WordTiming :=
  match words with
  | [] => []
  | _ :: _ =>
    let pairs := words.map (fun w => (w, estimateSyllables w))
    let totalWeight := (pairs.map (fun p => p.2)).sum
    distributeAux totalFrames totalWeight pairs 0

/-! ## Data model (`src/types.ts`)

Rendering-only detail (font records, crop configs, optional in/out points of
helper assets) is not read by any embedded function; the style records are
kept as opaque tokens that the pipeline merely copies through. -/

inductive ImportanceLevel
  | low
  | medium
  | high
  deriving DecidableEq

inductive LayoutType
  | A
  | B
  | C
  deriving DecidableEq

inductive TransitionType
  | cut
  | fade
  | slideLeft
  | slideRight
  | zoom
  | none
  deriving DecidableEq

inductive TextAnimation
  | pop
  | scale
  | slideUp
  | typewriter
  deriving DecidableEq

/-- Opaque caption style token (the builder only copies it). -/
abbrev CaptionStyle := String

/-- Opaque text-overlay style token (the planner only copies it). -/
abbrev TextOverlayStyle := String

structure Word where
  text : String
  startFrame : Int
  endFrame : Int
  isKeyword : Bool
  deriving DecidableEq

structure ScriptSegment where
  id : String
  text : String
  words : List Word
  startFrame : Int
  endFrame : Int
  durationFrames : Int
  keywords : List String
  importance : ImportanceLevel
  hasKeyPhrase : Bool
  deriving DecidableEq

structure SilenceRegion where
  startFrame : Int
  endFrame : Int
  durationFrames : Int
  deriving DecidableEq

structure AvatarClip where
  src : String
  startFrame : Int
  endFrame : Int
  originalStartFrame : Int
  originalEndFrame : Int
  volume : ℚ
  deriving DecidableEq

structure ProcessedAvatar where
  originalDurationFrames : Int
  processedDurationFrames : Int
  silenceRegions : List SilenceRegion
  clips : List AvatarClip
  deriving DecidableEq

inductive AssetType
  | video
  | image
  deriving DecidableEq

inductive FitMode
  | cover
  | contain
  deriving DecidableEq

structure HelperAsset where
  type : AssetType
  src : String
  title : String
  keywords : List String
  fit : FitMode
  deriving DecidableEq

structure AssetMatch where
  segmentId : String
  asset : HelperAsset
  relevanceScore : ℚ
  matchedKeywords : List String
  deriving DecidableEq

structure TextOverlay where
  primary : String
  secondary : Option String
  style : TextOverlayStyle
  animation : TextAnimation
  startFrame : Int
  endFrame : Int
  deriving DecidableEq

structure TransitionConfig where
  type : TransitionType
  durationFrames : Int
  sfx : Option String
  sfxVolume : ℚ
  deriving DecidableEq

structure CaptionWord where
  text : String
  startFrame : Int
  endFrame : Int
  deriving DecidableEq

structure CaptionData where
  words : List CaptionWord
  style : CaptionStyle
  deriving DecidableEq

structure TimelineItem where
  id : String
  segmentId : String
  startFrame : Int
  endFrame : Int
  durationFrames : Int
  layout : LayoutType
  avatarClip : AvatarClip
  helperAsset : Option HelperAsset
  textOverlay : Option TextOverlay
  caption : CaptionData
  transition : TransitionConfig
  deriving DecidableEq

structure Timeline where
  totalDurationFrames : Int
  items : List TimelineItem
  deriving DecidableEq

structure ProjectSettings where
  silenceThreshold : ℚ
  minClipDuration : ℚ
  transitionSfxProbability : ℚ
  musicVolume : ℚ
  captionStyle : CaptionStyle
  deriving DecidableEq

structure ProjectConfig where
  fps : Int
  width : Int
  height : Int
  settings : ProjectSettings
  deriving DecidableEq

/-! ## Script segmenter (`src/processing/scriptParser.ts`)

Only the sentence-grouping step `groupIntoSegments` (lines 139–180) is needed
by the claims. -/

/-- JS `array.join(' ')`. -/
def jsJoin : List String → String
  | [] => ""
  | [s] => s
  | s :: rest => s ++ " " ++ jsJoin rest

/-- The grouping loop: `cur` is the accumulated sentence group
(`currentSegment`), `cnt` the tracked `currentWordCount`. -/
def groupIntoSegmentsAux (minWords maxWords : Nat) :
    List String → List String → Nat → List String
  | [], cur, _ =>
    if cur.isEmpty then [] else [jsJoin cur]
  | sentence :: rest, cur, cnt =>
    let sentenceWords := jsWordCount sentence
    if sentenceWords > maxWords then
      -- a sentence exceeding the max becomes its own segment, after flushing
      (if cur.isEmpty then [] else [jsJoin cur]) ++
        sentence :: groupIntoSegmentsAux minWords maxWords rest [] 0
    else if cnt + sentenceWords > maxWords && cnt ≥ minWords then
      -- adding would exceed the max and the group is big enough: flush first
      jsJoin cur ::
        groupIntoSegmentsAux minWords maxWords rest [sentence] sentenceWords
    else
      groupIntoSegmentsAux minWords maxWords rest (cur ++ [sentence]) (cnt + sentenceWords)

/-- `groupIntoSegments(sentences, minWords, maxWords)`
(`scriptParser.ts` lines 139–180). -/
def groupIntoSegments (sentences : List String) (minWords maxWords : Nat) :
    List String :=
  groupIntoSegmentsAux minWords maxWords sentences [] 0

/-! ## Silence detector (`src/processing/silenceDetector.ts`) -/

/-- The sequential walk of `generateClipsFromSilences`: emit the non-silent
span before each silence when it is long enough, then skip past the silence;
after the last silence emit the remaining tail span. -/
def clipsLoop (src : String) (minClipFrames totalFrames : Int) :
    List SilenceRegion → Int → Int → List AvatarClip
  | [], currentFrame, outputFrame =>
    let remainingFrames := totalFrames - currentFrame
    if remainingFrames ≥ minClipFrames then
      [⟨src, outputFrame, outputFrame + remainingFrames, currentFrame, totalFrames, 1⟩]
    else []
  | silence :: rest, currentFrame, outputFrame =>
    let clipDuration := silence.startFrame - currentFrame
    if clipDuration ≥ minClipFrames then
      ⟨src, outputFrame, outputFrame + clipDuration, currentFrame, silence.startFrame, 1⟩ ::
        clipsLoop src minClipFrames totalFrames rest silence.endFrame (outputFrame + clipDuration)
    else
      clipsLoop src minClipFrames totalFrames rest silence.endFrame outputFrame

/-- `generateClipsFromSilences(src, totalFrames, silences, minClipFrames)`
(`silenceDetector.ts` lines 80–128).  The JS `sort((a, b) => a.startFrame -
b.startFrame)` is modelled by a merge sort on `startFrame`. -/
def generateClipsFromSilences (src : String) (totalFrames : Int)
    (silences : List SilenceRegion) (minClipFrames : Int) : List AvatarClip :=
  let sortedSilences :=
    silences.mergeSort (fun a b => decide (a.startFrame ≤ b.startFrame))
  clipsLoop src minClipFrames totalFrames sortedSilences 0 0

/-! ## Asset matcher (`src/assetMatcher.ts`, `src/unnamed/part_001`) -/

structure AssetMatcherOptions where
  minRelevanceScore : ℚ
  maxAssetsPerSegment : Nat
  allowAssetReuse : Bool
  deriving DecidableEq

structure AssetMatchResult where
  -- source field `matches`; renamed because `matches` is reserved in Lean
  matchList : List AssetMatch
  unmatchedSegments : List String
  unmatchedAssets : List String
  deriving DecidableEq

/-- Inner double loop of `calculateAssetRelevance`: accumulates
(`directMatches`, `partialMatches`, pushed `matchedKeywords`). -/
def relevancePairsFold (assetKeywords : List String)
    (st : Nat × Nat × List String) (segKw : String) : Nat × Nat × List String :=
  assetKeywords.foldl
    (fun st assetKw =>
      let (d, p, mk) := st
      if segKw = assetKw then (d + 1, p, mk ++ [segKw])
      else if jsIncludes segKw assetKw || jsIncludes assetKw segKw then
        (d, p + 1, if mk.contains segKw then mk else mk ++ [segKw])
      else st)
    st

/-- `calculateAssetRelevance(segment, asset)` (lines 164–214): returns the
composite score and the deduplicated matched keywords.  The float weights
0.6, 0.5, 0.25, 0.15 become the exact rationals they denote. -/
def calculateAssetRelevance (segment : ScriptSegment) (asset : HelperAsset) :
    ℚ × List String :=
  let (directMatches, partialMatches, matchedKeywords) :=
    segment.keywords.foldl (relevancePairsFold asset.keywords) (0, 0, [])
  let titleWords := jsSplitWs (jsToLower asset.title)
  let segmentTextLower := jsToLower segment.text
  let titleMatches :=
    titleWords.countP (fun w => w.length ≥ 4 && jsIncludes segmentTextLower w)
  let maxPossible : Nat := max (max segment.keywords.length asset.keywords.length) 1
  let directScore : ℚ := (directMatches : ℚ) / (maxPossible : ℚ)
  let partialScore : ℚ := ((partialMatches : ℚ) * (5/10)) / (maxPossible : ℚ)
  let titleScore : ℚ := (titleMatches : ℚ) / jsMax (titleWords.length : ℚ) 1
  let score :=
    jsMin (directScore * (6/10) + partialScore * (25/100) + titleScore * (15/100)) 1
  (score, dedupFirst matchedKeywords)

/-- One scored (segment, asset) candidate of the matcher's `allScores`. -/
structure ScoredCandidate where
  segmentId : String
  asset : HelperAsset
  score : ℚ
  matchedKeywords : List String
  deriving DecidableEq

/-- Greedy-assignment state: accepted matches, used asset sources
(the `usedAssets` set), matched segment ids (the `matchedSegments` set). -/
abbrev MatcherState := List AssetMatch × List String × List String

/-- One step of the greedy assignment loop of `matchAssetsToSegments`. -/
def greedyStep (options : AssetMatcherOptions) (st : MatcherState)
    (cand : ScoredCandidate) : MatcherState :=
  let (accepted, usedAssets, matchedSegments) := st
  let segmentMatchCount :=
    (accepted.filter (fun m => m.segmentId = cand.segmentId)).length
  if segmentMatchCount ≥ options.maxAssetsPerSegment then st
  else if !options.allowAssetReuse && usedAssets.contains cand.asset.src then st
  else if accepted.any
      (fun m => m.segmentId = cand.segmentId && m.asset.src = cand.asset.src) then st
  else
    (accepted ++ [⟨cand.segmentId, cand.asset, cand.score, cand.matchedKeywords⟩],
      usedAssets ++ [cand.asset.src],
      matchedSegments ++ [cand.segmentId])

/-- `matchAssetsToSegments(segments, assets, options)` (lines 72–159):
score all pairs, keep those above threshold, sort descending by score,
assign greedily under the per-segment, reuse and duplicate constraints. -/
def matchAssetsToSegments (segments : List ScriptSegment)
    (assets : List HelperAsset) (options : AssetMatcherOptions) :
    AssetMatchResult :=
  let allScores : List ScoredCandidate :=
    segments.flatMap (fun segment =>
      assets.filterMap (fun asset =>
        let (score, matchedKeywords) := calculateAssetRelevance segment asset
        if score ≥ options.minRelevanceScore then
          some ⟨segment.id, asset, score, matchedKeywords⟩
        else none))
  let sorted := allScores.mergeSort (fun a b => decide (b.score ≤ a.score))
  let (acceptedMatches, usedAssets, matchedSegments) :=
    sorted.foldl (greedyStep options) ([], [], [])
  { matchList := acceptedMatches
    unmatchedSegments :=
      (segments.filter (fun s => !matchedSegments.contains s.id)).map (fun s => s.id)
    unmatchedAssets :=
      (assets.filter (fun a => !usedAssets.contains a.src)).map (fun a => a.src) }

/-! ## Layout planner (`src/processing/layoutPlanner.ts`) -/

structure SfxSources where
  click : Option String
  swoosh : Option String
  impact : Option String
  deriving DecidableEq

inductive SfxKey
  | click
  | swoosh
  | impact
  deriving DecidableEq

/-- `sfxSources[sfxKey]`. -/
def SfxSources.lookup (s : SfxSources) : SfxKey → Option String
  | .click => s.click
  | .swoosh => s.swoosh
  | .impact => s.impact

structure LayoutPlannerOptions where
  fps : Int
  transitionDurationFrames : Int
  transitionSfxProbability : ℚ
  sfxSources : SfxSources
  defaultTextOverlayStyle : TextOverlayStyle
  deriving DecidableEq

/-- `decideLayout(segment, assetMatch)` (lines 121–154).  The returned
reasoning string is kept without the interpolated relevance score (the
source embeds `relevanceScore.toFixed(2)`, which no caller inspects). -/
def decideLayout (segment : ScriptSegment) (assetMatch : Option AssetMatch) :
    LayoutType × String :=
  match assetMatch with
  | some _ =>
    if segment.importance = .high then
      (.C, "High importance segment with matched asset")
    else
      (.B, "Matched asset")
  | none =>
    if segment.hasKeyPhrase then
      (.A, "Key phrase detected, will use text overlay")
    else
      (.A, "Default full avatar layout")

/-- Pop the next ambient `Math.random()` draw off the modelled stream. -/
def nextRandom : List ℚ → ℚ × List ℚ
  | [] => (0, [])
  | r :: rest => (r, rest)

/-- `decideTransition(fromLayout, toLayout, isFirstSegment, options)`
(lines 159–216).  The source's ambient `Math.random()` calls are modelled by
consuming draws from `rng` in call order; the pair returned carries the
remaining stream. -/
def decideTransition (fromLayout toLayout : LayoutType)
    (isFirstSegment : Bool) (options : LayoutPlannerOptions)
    (rng : List ℚ) : TransitionConfig × List ℚ :=
  if isFirstSegment then
    ({ type := .none, durationFrames := 0, sfx := Option.none, sfxVolume := 0 }, rng)
  else
    let (type, sfxKey, rng) :
        TransitionType × Option SfxKey × List ℚ :=
      if fromLayout = toLayout && toLayout = .A then
        let (r, rng) := nextRandom rng
        ((if r > 4/10 then .cut else .fade), some .click, rng)
      else if fromLayout = .A && (toLayout = .B || toLayout = .C) then
        let (r, rng) := nextRandom rng
        ((if r > 5/10 then .slideLeft else .zoom), some .swoosh, rng)
      else if (fromLayout = .B || fromLayout = .C) && toLayout = .A then
        let (r, rng) := nextRandom rng
        ((if r > 5/10 then .slideRight else .fade), some .swoosh, rng)
      else if fromLayout = .B && toLayout = .C then
        (.zoom, some .impact, rng)
      else if fromLayout = .C && toLayout = .B then
        (.fade, some .swoosh, rng)
      else
        (.cut, some .click, rng)
    let (r, rng) := nextRandom rng
    let shouldPlaySfx := r < options.transitionSfxProbability
    let sfx :=
      if shouldPlaySfx then
        match sfxKey with
        | some k => options.sfxSources.lookup k
        | none => Option.none
      else Option.none
    ({ type := type
       durationFrames := if type = .cut then 0 else options.transitionDurationFrames
       sfx := sfx
       sfxVolume := 6/10 }, rng)

/-- Leftmost match of `/"([^"]+)"/`: the first quote followed by a nonempty
run of non-quote characters and a closing quote; the capture is that run. -/
def findQuoted : List Char → Option (List Char)
  | [] => Option.none
  | c :: cs =>
    if c = '"' then
      let run := cs.takeWhile (fun ch => ch ≠ '"')
      if !run.isEmpty && (cs.drop run.length).head? = some '"' then some run
      else findQuoted cs
    else findQuoted cs

/-- JS `\w` character class `[A-Za-z0-9_]`. -/
def isWordCh (c : Char) : Bool :=
  c.isAlpha || c.isDigit || c = '_'

/-- Leftmost match of `/\b(\d+\s+\w+(?:\s+\w+)?)\b/`: a maximal digit run
preceded by a word boundary, whitespace, a word, and optionally whitespace
and a second word.  `prevIsWord` tracks whether the previous character was a
word character (for the leading `\b`); maximal-run munching coincides with
the regex's greedy matching here because shortening any `+`-run only moves
the next required class onto a character that cannot match it. -/
def findNumberedAux : Bool → List Char → Option (List Char)
  | _, [] => Option.none
  | prevIsWord, c :: cs =>
    if !prevIsWord && c.isDigit then
      let digits := (c :: cs).takeWhile Char.isDigit
      let rest1 := (c :: cs).drop digits.length
      let ws1 := rest1.takeWhile Char.isWhitespace
      let rest2 := rest1.drop ws1.length
      let w1 := rest2.takeWhile isWordCh
      if !ws1.isEmpty && !w1.isEmpty then
        let rest3 := rest2.drop w1.length
        let ws2 := rest3.takeWhile Char.isWhitespace
        let rest4 := rest3.drop ws2.length
        let w2 := rest4.takeWhile isWordCh
        if !ws2.isEmpty && !w2.isEmpty then
          some (digits ++ ws1 ++ w1 ++ ws2 ++ w2)
        else some (digits ++ ws1 ++ w1)
      else findNumberedAux (isWordCh c) cs
    else findNumberedAux (isWordCh c) cs

/-- Leftmost "number + 1–2 words" phrase in a string. -/
def findNumbered (s : String) : Option (List Char) :=
  findNumberedAux false s.data

/-- `extractDisplayPhrase(segment)` (lines 263–290): quoted phrase, then
numbered phrase, then the first 2–3 keywords upper-cased, then the first
1–2 keyword-flagged words upper-cased. -/
def extractDisplayPhrase (segment : ScriptSegment) : Option String :=
  match findQuoted segment.text.data with
  | some run => some (String.mk run)
  | Option.none =>
  match findNumbered segment.text with
  | some run => some (String.mk run)
  | Option.none =>
  if segment.keywords.length ≥ 2 then
    some (jsToUpper (String.intercalate " " (segment.keywords.take 3)))
  else
    let keywordWords := (segment.words.filter (fun w => w.isKeyword)).map (fun w => w.text)
    if keywordWords.length ≥ 1 then
      some (jsToUpper (String.intercalate " " (keywordWords.take 2)))
    else Option.none

/-- `decideTextOverlay(segment, layout, assetMatch, options)` (lines
221–258).  The float literals `0.2` and `0.8` denote the rationals
`2/10` and `8/10`; `Math.round` is `round` (see the header). -/
def decideTextOverlay (segment : ScriptSegment) (layout : LayoutType)
    (_assetMatch : Option AssetMatch) (options : LayoutPlannerOptions) :
    Option TextOverlay :=
  if layout ≠ .A then Option.none
  else if !segment.hasKeyPhrase && segment.importance ≠ .high then Option.none
  else
    match extractDisplayPhrase segment with
    | Option.none => Option.none
    | some primaryText =>
      let segmentDuration := segment.durationFrames
      let overlayStart : Int := round ((segmentDuration : ℚ) * (2/10))
      let overlayEnd : Int := round ((segmentDuration : ℚ) * (8/10))
      some
        { primary := primaryText
          secondary := Option.none
          style := options.defaultTextOverlayStyle
          animation := if segment.importance = .high then .pop else .scale
          startFrame := segment.startFrame + overlayStart
          endFrame := segment.startFrame + overlayEnd }

/-! ## Timeline builder (`src/timelineBuilder.ts`, `src/unnamed/part_001`) -/

structure LayoutDecision where
  segmentId : String
  layout : LayoutType
  helperAsset : Option HelperAsset
  textOverlay : Option TextOverlay
  transition : TransitionConfig
  reasoning : String
  deriving DecidableEq

structure ParsedScript where
  segments : List ScriptSegment
  totalWords : Nat
  totalEstimatedFrames : Int
  allKeywords : List String
  keyPhrases : List String
  deriving DecidableEq

structure TimelineBuildInput where
  parsedScript : ParsedScript
  processedAvatar : ProcessedAvatar
  layoutDecisions : List LayoutDecision
  deriving DecidableEq

structure TimelineBuilderOptions where
  config : ProjectConfig
  deriving DecidableEq

/-- The `Map.set` accumulation of `layoutMap`: the last decision with a
given `segmentId` wins. -/
def findDecision (decisions : List LayoutDecision) (sid : String) :
    Option LayoutDecision :=
  decisions.foldl (fun acc d => if d.segmentId = sid then some d else acc) Option.none

/-- `findAvatarClipForSegment(segment, processedAvatar, outputStartFrame)`
(lines 359–406).  With no clip at all the source would crash reading
`clips[0].src`; that unreachable read is modelled by an empty source
reference (none of the verified properties depends on it). -/
def findAvatarClipForSegment (segment : ScriptSegment)
    (processedAvatar : ProcessedAvatar) (outputStartFrame : Int) : AvatarClip :=
  match processedAvatar.clips with
  | [clip] =>
    { src := clip.src
      startFrame := outputStartFrame
      endFrame := outputStartFrame + segment.durationFrames
      originalStartFrame := segment.startFrame
      originalEndFrame := segment.endFrame
      volume := 1 }
  | clips =>
    match clips.find? (fun clip =>
        clip.originalStartFrame ≤ segment.startFrame &&
        clip.originalEndFrame ≥ segment.endFrame) with
    | some clip =>
      let offsetInClip := segment.startFrame - clip.originalStartFrame
      { src := clip.src
        startFrame := outputStartFrame
        endFrame := outputStartFrame + segment.durationFrames
        originalStartFrame := clip.originalStartFrame + offsetInClip
        originalEndFrame := clip.originalStartFrame + offsetInClip + segment.durationFrames
        volume := 1 }
    | Option.none =>
      { src := (clips.head?.map (fun c => c.src)).getD ""
        startFrame := outputStartFrame
        endFrame := outputStartFrame + segment.durationFrames
        originalStartFrame := segment.startFrame
        originalEndFrame := segment.endFrame
        volume := 1 }

/-- `buildCaptionData(segment, outputStartFrame, config)` (lines 411–436):
word timings are mapped to the output range with the time-scale factor
`durationFrames / max(endFrame - startFrame, 1)`. -/
def buildCaptionData (segment : ScriptSegment) (outputStartFrame : Int)
    (config : ProjectConfig) : CaptionData :=
  let segmentDuration := segment.durationFrames
  let originalDuration := segment.endFrame - segment.startFrame
  let timeScale : ℚ := (segmentDuration : ℚ) / ((max originalDuration 1 : Int) : ℚ)
  { words := segment.words.map (fun word =>
      let relativeStart := word.startFrame - segment.startFrame
      let relativeEnd := word.endFrame - segment.startFrame
      { text := word.text
        startFrame := outputStartFrame + round ((relativeStart : ℚ) * timeScale)
        endFrame := outputStartFrame + round ((relativeEnd : ℚ) * timeScale) })
    style := config.settings.captionStyle }

/-- The item-building loop of `buildTimeline` over the indexed segments.
A segment without a layout decision is skipped (the source logs a warning
and `continue`s) and the output cursor does not advance.  Returns the items
together with the final cursor (`totalDurationFrames`). -/
def buildTimelineAux (decisions : List LayoutDecision)
    (processedAvatar : ProcessedAvatar) (config : ProjectConfig) :
    List (Nat × ScriptSegment) → Int → List TimelineItem × Int
  | [], currentOutputFrame => ([], currentOutputFrame)
  | (i, segment) :: rest, currentOutputFrame =>
    match findDecision decisions segment.id with
    | Option.none => buildTimelineAux decisions processedAvatar config rest currentOutputFrame
    | some decision =>
      let avatarClip := findAvatarClipForSegment segment processedAvatar currentOutputFrame
      let caption := buildCaptionData segment currentOutputFrame config
      let itemDuration := avatarClip.endFrame - avatarClip.startFrame
      let item : TimelineItem :=
        { id := "item-" ++ toString (i + 1)
          segmentId := segment.id
          startFrame := currentOutputFrame
          endFrame := currentOutputFrame + itemDuration
          durationFrames := itemDuration
          layout := decision.layout
          avatarClip := avatarClip
          helperAsset := decision.helperAsset
          textOverlay := decision.textOverlay.map (fun ov =>
            { ov with
              startFrame := ov.startFrame - segment.startFrame + currentOutputFrame
              endFrame := ov.endFrame - segment.startFrame + currentOutputFrame })
          caption := caption
          transition := decision.transition }
      let recResult :=
        buildTimelineAux decisions processedAvatar config rest
          (currentOutputFrame + itemDuration)
      (item :: recResult.1, recResult.2)

/-- `buildTimeline(input, options)` (lines 280–354). -/
def buildTimeline (input : TimelineBuildInput) (options : TimelineBuilderOptions) :
    Timeline :=
  let (items, total) :=
    buildTimelineAux input.layoutDecisions input.processedAvatar options.config
      input.parsedScript.segments.enum 0
  { totalDurationFrames := total, items := items }

/-! ## Shared contiguity predicates -/

/-- The word spans starting from `cur` are contiguous: each span starts
where the previous one ends. -/
def ContigSpans : Int → List WordTiming → Prop
  | _, [] => True
  | cur, t :: rest => t.startFrame = cur ∧ ContigSpans t.endFrame rest

/-- The timeline items starting from cursor `cur` are contiguous. -/
def ContigItems : Int → List TimelineItem → Prop
  | _, [] => True
  | cur, it :: rest =>
    it.startFrame = cur ∧ it.endFrame = cur + it.durationFrames ∧
      ContigItems it.endFrame rest

/-- The clips' output ranges starting from cursor `cur` are contiguous. -/
def ContigClips : Int → List AvatarClip → Prop
  | _, [] => True
  | cur, c :: rest => c.startFrame = cur ∧ ContigClips c.endFrame rest

/-! ## C5: `distributeFramesAcrossWords` span structure -/

theorem distributeAux_contig (totalFrames : Int) (totalWeight : Nat) :
    ∀ (pairs : List (String × Nat)) (cur : Int),
      ContigSpans cur (distributeAux totalFrames totalWeight pairs cur) := by
  intro pairs
  induction pairs with
  | nil => intro cur; simp [distributeAux, ContigSpans]
  | cons p rest ih =>
    intro cur
    obtain ⟨w, wt⟩ := p
    exact ⟨rfl, ih _⟩

theorem distributeAux_last (totalFrames : Int) (totalWeight : Nat) :
    ∀ (pairs : List (String × Nat)) (cur : Int), pairs ≠ [] →
      ∃ t, (distributeAux totalFrames totalWeight pairs cur).getLast? = some t ∧
        t.endFrame = totalFrames := by
  intro pairs
  induction pairs with
  | nil => intro cur h; exact absurd rfl h
  | cons p rest ih =>
    intro cur _
    obtain ⟨w, wt⟩ := p
    rcases rest with _ | ⟨q, qs⟩
    · exact ⟨⟨w, cur, totalFrames⟩, rfl, rfl⟩
    · obtain ⟨t, ht, hend⟩ :=
        ih (cur + round (((wt : ℚ) / (totalWeight : ℚ)) * (totalFrames : ℚ))) (by simp)
      refine ⟨t, ?_, hend⟩
      show (⟨w, cur, cur + round (((wt : ℚ) / (totalWeight : ℚ)) * (totalFrames : ℚ))⟩ ::
        distributeAux totalFrames totalWeight (q :: qs)
          (cur + round (((wt : ℚ) / (totalWeight : ℚ)) * (totalFrames : ℚ)))).getLast? = some t
      rcases hcase : distributeAux totalFrames totalWeight (q :: qs)
          (cur + round (((wt : ℚ) / (totalWeight : ℚ)) * (totalFrames : ℚ))) with _ | ⟨t2, ts⟩
      · rw [hcase] at ht; simp at ht
      · rw [hcase] at ht
        rw [List.getLast?_cons_cons]
        exact ht

theorem distributeAux_length (totalFrames : Int) (totalWeight : Nat) :
    ∀ (pairs : List (String × Nat)) (cur : Int),
      (distributeAux totalFrames totalWeight pairs cur).length = pairs.length := by
  intro pairs
  induction pairs with
  | nil => intro cur; simp [distributeAux]
  | cons p rest ih => intro cur; obtain ⟨w, wt⟩ := p; simp [distributeAux, ih]

/-- Claim C5: for every word list and every total frame count, the spans
returned by `distributeFramesAcrossWords` are contiguous, the first span
starts at frame 0, and the last span's end equals the requested total
exactly (the rounding error is absorbed by the final span). -/
theorem distributeFramesAcrossWords_spans (words : List String)
    (totalFrames fps : Int) (h : words ≠ []) :
    ContigSpans 0 (distributeFramesAcrossWords words totalFrames fps) ∧
      (∃ t0, (distributeFramesAcrossWords words totalFrames fps).head? = some t0 ∧
        t0.startFrame = 0) ∧
      (∃ t, (distributeFramesAcrossWords words totalFrames fps).getLast? = some t ∧
        t.endFrame = totalFrames) := by
  rcases words with _ | ⟨w, ws⟩
  · exact absurd rfl h
  · have hdef : distributeFramesAcrossWords (w :: ws) totalFrames fps =
      distributeAux totalFrames
        (((w :: ws).map (fun x => (x, estimateSyllables x))).map (fun p => p.2)).sum
        ((w :: ws).map (fun x => (x, estimateSyllables x))) 0 := rfl
    rw [hdef]
    refine ⟨distributeAux_contig _ _ _ _, ?_, distributeAux_last _ _ _ _ (by simp)⟩
    have hcontig := distributeAux_contig totalFrames
      (((w :: ws).map (fun x => (x, estimateSyllables x))).map (fun p => p.2)).sum
      ((w :: ws).map (fun x => (x, estimateSyllables x))) 0
    rcases hres : distributeAux totalFrames
        (((w :: ws).map (fun x => (x, estimateSyllables x))).map (fun p => p.2)).sum
        ((w :: ws).map (fun x => (x, estimateSyllables x))) 0 with _ | ⟨t0, ts⟩
    · exfalso
      have hlen := distributeAux_length totalFrames
        (((w :: ws).map (fun x => (x, estimateSyllables x))).map (fun p => p.2)).sum
        ((w :: ws).map (fun x => (x, estimateSyllables x))) 0
      rw [hres] at hlen
      simp at hlen
    · rw [hres] at hcontig ⊢
      exact ⟨t0, rfl, hcontig.1⟩

/-- Witness for C5 at a concrete input. -/
theorem distributeFramesAcrossWords_spans_witness :
    (["hello", "a"] : List String) ≠ [] ∧
      (ContigSpans 0 (distributeFramesAcrossWords ["hello", "a"] 10 30) ∧
        (∃ t0, (distributeFramesAcrossWords ["hello", "a"] 10 30).head? = some t0 ∧
          t0.startFrame = 0) ∧
        (∃ t, (distributeFramesAcrossWords ["hello", "a"] 10 30).getLast? = some t ∧
          t.endFrame = 10)) :=
  ⟨by decide, distributeFramesAcrossWords_spans ["hello", "a"] 10 30 (by decide)⟩

/-! ## C8: `generateClipsFromSilences` invariants -/

theorem clipsLoop_lengths (src : String) (minClipFrames totalFrames : Int) :
    ∀ (sil : List SilenceRegion) (cur out : Int),
      ∀ c ∈ clipsLoop src minClipFrames totalFrames sil cur out,
        minClipFrames ≤ c.endFrame - c.startFrame ∧
          c.endFrame - c.startFrame = c.originalEndFrame - c.originalStartFrame := by
  intro sil
  induction sil with
  | nil =>
    intro cur out c hc
    simp only [clipsLoop] at hc
    split at hc
    · rcases List.mem_cons.mp hc with hc | hc
      · subst hc
        constructor
        · simpa using (by assumption : totalFrames - cur ≥ minClipFrames)
        · simp
      · simp at hc
    · simp at hc
  | cons s rest ih =>
    intro cur out c hc
    simp only [clipsLoop] at hc
    split at hc
    · rcases List.mem_cons.mp hc with hc | hc
      · subst hc
        constructor
        · simpa using (by assumption : s.startFrame - cur ≥ minClipFrames)
        · simp
      · exact ih _ _ c hc
    · exact ih _ _ c hc

theorem clipsLoop_origStart (src : String) (minClipFrames totalFrames : Int) :
    ∀ (sil : List SilenceRegion) (cur out : Int),
      ∀ c ∈ clipsLoop src minClipFrames totalFrames sil cur out,
        c.originalStartFrame = cur ∨ ∃ s ∈ sil, c.originalStartFrame = s.endFrame := by
  intro sil
  induction sil with
  | nil =>
    intro cur out c hc
    simp only [clipsLoop] at hc
    split at hc
    · rcases List.mem_cons.mp hc with hc | hc
      · subst hc; exact Or.inl rfl
      · simp at hc
    · simp at hc
  | cons s rest ih =>
    intro cur out c hc
    simp only [clipsLoop] at hc
    split at hc
    · rcases List.mem_cons.mp hc with hc | hc
      · subst hc; exact Or.inl rfl
      · rcases ih _ _ c hc with h | ⟨s2, hs2, h⟩
        · exact Or.inr ⟨s, by simp, h⟩
        · exact Or.inr ⟨s2, by simp [hs2], h⟩
    · rcases ih _ _ c hc with h | ⟨s2, hs2, h⟩
      · exact Or.inr ⟨s, by simp, h⟩
      · exact Or.inr ⟨s2, by simp [hs2], h⟩

theorem clipsLoop_disjoint (src : String) (minClipFrames totalFrames : Int) :
    ∀ (sil : List SilenceRegion) (cur out : Int),
      (∀ s ∈ sil, s.startFrame ≤ s.endFrame) →
      List.Pairwise (fun a b => a.startFrame ≤ b.startFrame) sil →
      List.Pairwise (fun c1 c2 => c1.originalEndFrame ≤ c2.originalStartFrame)
        (clipsLoop src minClipFrames totalFrames sil cur out) := by
  intro sil
  induction sil with
  | nil =>
    intro cur out _ _
    simp only [clipsLoop]
    split
    · exact List.pairwise_singleton _ _
    · exact List.Pairwise.nil
  | cons s rest ih =>
    intro cur out hwf hsorted
    have hwf_rest : ∀ s2 ∈ rest, s2.startFrame ≤ s2.endFrame :=
      fun s2 h2 => hwf s2 (by simp [h2])
    have hsorted_rest := (List.pairwise_cons.mp hsorted).2
    have hle_rest := (List.pairwise_cons.mp hsorted).1
    simp only [clipsLoop]
    split
    · refine List.pairwise_cons.mpr ⟨?_, ih _ _ hwf_rest hsorted_rest⟩
      intro c hc
      rcases clipsLoop_origStart src minClipFrames totalFrames rest s.endFrame _ c hc with
        h | ⟨s2, hs2, h⟩
      · simpa [h] using hwf s (by simp)
      · rw [h]
        exact le_trans (hle_rest s2 hs2) (hwf_rest s2 hs2)
    · exact ih _ _ hwf_rest hsorted_rest

theorem clipsLoop_output_contig (src : String) (minClipFrames totalFrames : Int) :
    ∀ (sil : List SilenceRegion) (cur out : Int),
      ContigClips out (clipsLoop src minClipFrames totalFrames sil cur out) := by
  intro sil
  induction sil with
  | nil =>
    intro cur out
    simp only [clipsLoop]
    split
    · exact ⟨rfl, trivial⟩
    · trivial
  | cons s rest ih =>
    intro cur out
    simp only [clipsLoop]
    split
    · exact ⟨rfl, ih _ _⟩
    · exact ih _ _

/-- Claim C8: for every silence list whose regions each satisfy
`startFrame ≤ endFrame` (which holds after the threshold filter) and every
nonnegative minimum clip length, the generated clips have pairwise disjoint,
ordered original ranges, every clip is at least the minimum length (output
and original spans agreeing), and the output ranges are packed contiguously
from frame 0. -/
theorem generateClipsFromSilences_invariants (src : String) (totalFrames : Int)
    (silences : List SilenceRegion) (minClipFrames : Int)
    (hwf : ∀ s ∈ silences, s.startFrame ≤ s.endFrame) (hmc : 0 ≤ minClipFrames) :
    List.Pairwise (fun c1 c2 => c1.originalEndFrame ≤ c2.originalStartFrame)
      (generateClipsFromSilences src totalFrames silences minClipFrames) ∧
    (∀ c ∈ generateClipsFromSilences src totalFrames silences minClipFrames,
      minClipFrames ≤ c.endFrame - c.startFrame ∧
      c.endFrame - c.startFrame = c.originalEndFrame - c.originalStartFrame ∧
      c.originalStartFrame ≤ c.originalEndFrame) ∧
    ContigClips 0 (generateClipsFromSilences src totalFrames silences minClipFrames) := by
  have hperm := List.mergeSort_perm silences
    (fun a b => decide (a.startFrame ≤ b.startFrame))
  have hwf_sorted : ∀ s ∈ silences.mergeSort
      (fun a b => decide (a.startFrame ≤ b.startFrame)), s.startFrame ≤ s.endFrame :=
    fun s hs => hwf s (hperm.mem_iff.mp hs)
  have hsorted := @List.sorted_mergeSort SilenceRegion
    (fun a b => decide (a.startFrame ≤ b.startFrame))
    (fun a b c hab hbc => by
      simp only [decide_eq_true_eq] at *
      exact le_trans hab hbc)
    (fun a b => by
      simp only [Bool.or_eq_true, decide_eq_true_eq]
      exact le_total _ _)
    silences
  have hsorted' : List.Pairwise (fun (a b : SilenceRegion) => a.startFrame ≤ b.startFrame)
      (silences.mergeSort (fun a b => decide (a.startFrame ≤ b.startFrame))) := by
    refine hsorted.imp ?_
    intro a b hab
    simpa using hab
  refine ⟨?_, ?_, ?_⟩
  · exact clipsLoop_disjoint src minClipFrames totalFrames _ 0 0 hwf_sorted hsorted'
  · intro c hc
    obtain ⟨h1, h2⟩ := clipsLoop_lengths src minClipFrames totalFrames _ 0 0 c hc
    exact ⟨h1, h2, by omega⟩
  · exact clipsLoop_output_contig src minClipFrames totalFrames _ 0 0

/-- Witness for C8 at the spec's example: a 1-second silence at 2s in a
10-second clip at 30 fps. -/
theorem generateClipsFromSilences_invariants_witness :
    (∀ s ∈ [(⟨60, 90, 30⟩ : SilenceRegion)], s.startFrame ≤ s.endFrame) ∧
      (0 : Int) ≤ 30 ∧
      (List.Pairwise (fun c1 c2 => c1.originalEndFrame ≤ c2.originalStartFrame)
        (generateClipsFromSilences "avatar.mp4" 300 [⟨60, 90, 30⟩] 30) ∧
      (∀ c ∈ generateClipsFromSilences "avatar.mp4" 300 [⟨60, 90, 30⟩] 30,
        (30 : Int) ≤ c.endFrame - c.startFrame ∧
        c.endFrame - c.startFrame = c.originalEndFrame - c.originalStartFrame ∧
        c.originalStartFrame ≤ c.originalEndFrame) ∧
      ContigClips 0 (generateClipsFromSilences "avatar.mp4" 300 [⟨60, 90, 30⟩] 30)) :=
  ⟨by decide, by decide,
    generateClipsFromSilences_invariants "avatar.mp4" 300 [⟨60, 90, 30⟩] 30
      (by decide) (by decide)⟩

/-! ## C6: greedy matcher constraints -/

/-- The invariant the greedy loop maintains on the accepted matches. -/
def MatcherInv (maxAssetsPerSegment : Nat) (ms : List AssetMatch) : Prop :=
  List.Pairwise
    (fun m1 m2 => ¬(m1.segmentId = m2.segmentId ∧ m1.asset.src = m2.asset.src)) ms ∧
  ∀ sid : String,
    (ms.filter (fun m => m.segmentId = sid)).length ≤ maxAssetsPerSegment

theorem greedyStep_inv (options : AssetMatcherOptions) (st : MatcherState)
    (cand : ScoredCandidate) (h : MatcherInv options.maxAssetsPerSegment st.1) :
    MatcherInv options.maxAssetsPerSegment (greedyStep options st cand).1 := by
  obtain ⟨ms, ua, mseg⟩ := st
  obtain ⟨hpw, hcount⟩ := h
  simp only [greedyStep]
  split
  · exact ⟨hpw, hcount⟩
  · split
    · exact ⟨hpw, hcount⟩
    · split
      · exact ⟨hpw, hcount⟩
      · rename_i hlt _ hdup
        constructor
        · rw [List.pairwise_append]
          refine ⟨hpw, List.pairwise_singleton _ _, ?_⟩
          intro m hm m' hm' hcontra
          rw [List.mem_singleton] at hm'
          subst hm'
          have : ms.any
              (fun m => m.segmentId = cand.segmentId && m.asset.src = cand.asset.src) =
              true := by
            rw [List.any_eq_true]
            exact ⟨m, hm, by simp [hcontra.1, hcontra.2]⟩
          simp [this] at hdup
        · intro sid
          rw [List.filter_append, List.length_append]
          by_cases hsid : cand.segmentId = sid
          · subst hsid
            have hlt' :
                (ms.filter (fun m => m.segmentId = cand.segmentId)).length <
                  options.maxAssetsPerSegment := by
              simpa using Nat.lt_of_not_le (by simpa using hlt)
            have : (([(⟨cand.segmentId, cand.asset, cand.score,
                cand.matchedKeywords⟩ : AssetMatch)]).filter
                  (fun m => m.segmentId = cand.segmentId)).length ≤ 1 := by
              simp
            omega
          · have : (([(⟨cand.segmentId, cand.asset, cand.score,
                cand.matchedKeywords⟩ : AssetMatch)]).filter
                  (fun m => m.segmentId = sid)).length = 0 := by
              simp [hsid]
            rw [this]
            simpa using hcount sid


theorem greedyFold_inv (options : AssetMatcherOptions) :
    ∀ (cands : List ScoredCandidate) (st : MatcherState),
      MatcherInv options.maxAssetsPerSegment st.1 →
      MatcherInv options.maxAssetsPerSegment
        (cands.foldl (greedyStep options) st).1 := by
  intro cands
  induction cands with
  | nil => intro st h; exact h
  | cons c rest ih =>
    intro st h
    exact ih (greedyStep options st c) (greedyStep_inv options st c h)

/-- Claim C6: for every segment list, asset list and matcher options, the
match list returned by `matchAssetsToSegments` never contains the same
(segmentId, asset source) pair twice, and no segment id appears in more than
`maxAssetsPerSegment` matches. -/
theorem matchAssetsToSegments_constraints (segments : List ScriptSegment)
    (assets : List HelperAsset) (options : AssetMatcherOptions) :
    List.Pairwise
      (fun m1 m2 => ¬(m1.segmentId = m2.segmentId ∧ m1.asset.src = m2.asset.src))
      (matchAssetsToSegments segments assets options).matchList ∧
    ∀ sid : String,
      ((matchAssetsToSegments segments assets options).matchList.filter
        (fun m => m.segmentId = sid)).length ≤ options.maxAssetsPerSegment := by
  have h := greedyFold_inv options
    ((segments.flatMap (fun segment =>
      assets.filterMap (fun asset =>
        let p := calculateAssetRelevance segment asset
        if p.1 ≥ options.minRelevanceScore then
          some ⟨segment.id, asset, p.1, p.2⟩
        else none))).mergeSort (fun a b => decide (b.score ≤ a.score)))
    ([], [], [])
    ⟨List.Pairwise.nil, fun _ => by simp⟩
  exact h

/-! ## Timeline builder structure (claims C1, C7, C10) -/

theorem findAvatarClipForSegment_duration (segment : ScriptSegment)
    (processedAvatar : ProcessedAvatar) (out : Int) :
    (findAvatarClipForSegment segment processedAvatar out).startFrame = out ∧
    (findAvatarClipForSegment segment processedAvatar out).endFrame =
      out + segment.durationFrames := by
  unfold findAvatarClipForSegment
  split
  · simp
  · split
    · simp
    · simp

theorem buildTimelineAux_contig (d : List LayoutDecision) (pa : ProcessedAvatar)
    (cfg : ProjectConfig) :
    ∀ (l : List (Nat × ScriptSegment)) (cur : Int),
      ContigItems cur (buildTimelineAux d pa cfg l cur).1 := by
  intro l
  induction l with
  | nil => intro cur; exact trivial
  | cons p rest ih =>
    intro cur
    obtain ⟨i, seg⟩ := p
    rcases hdec : findDecision d seg.id with _ | dec
    · simp only [buildTimelineAux, hdec]
      exact ih cur
    · simp only [buildTimelineAux, hdec]
      refine ⟨rfl, ?_, ?_⟩
      · show (cur + _ : Int) = cur + _
        rfl
      · exact ih _

theorem buildTimelineAux_total (d : List LayoutDecision) (pa : ProcessedAvatar)
    (cfg : ProjectConfig) :
    ∀ (l : List (Nat × ScriptSegment)) (cur : Int),
      (buildTimelineAux d pa cfg l cur).2 =
        cur + ((buildTimelineAux d pa cfg l cur).1.map
          (fun it => it.durationFrames)).sum := by
  intro l
  induction l with
  | nil => intro cur; simp [buildTimelineAux]
  | cons p rest ih =>
    intro cur
    obtain ⟨i, seg⟩ := p
    rcases hdec : findDecision d seg.id with _ | dec
    · simp only [buildTimelineAux, hdec]
      exact ih cur
    · simp only [buildTimelineAux, hdec, List.map_cons, List.sum_cons]
      rw [ih]
      ring

theorem buildTimelineAux_shape (d : List LayoutDecision) (pa : ProcessedAvatar)
    (cfg : ProjectConfig) :
    ∀ (l : List (Nat × ScriptSegment)) (cur : Int),
      (buildTimelineAux d pa cfg l cur).1.map (fun it => it.segmentId) =
        (l.filter (fun p => (findDecision d p.2.id).isSome)).map (fun p => p.2.id) ∧
      (buildTimelineAux d pa cfg l cur).1.map (fun it => it.durationFrames) =
        (l.filter (fun p => (findDecision d p.2.id).isSome)).map
          (fun p => p.2.durationFrames) := by
  intro l
  induction l with
  | nil => intro cur; simp [buildTimelineAux]
  | cons p rest ih =>
    intro cur
    obtain ⟨i, seg⟩ := p
    rcases hdec : findDecision d seg.id with _ | dec
    · simpa only [buildTimelineAux, hdec, List.filter_cons, Option.isSome_none,
        Bool.false_eq_true, if_false] using ih cur
    · have hdur := findAvatarClipForSegment_duration seg pa cur
      constructor
      · simpa only [buildTimelineAux, hdec, List.map_cons, List.filter_cons,
          Option.isSome_some, if_true] using congrArg (List.cons seg.id) ((ih _).1)
      · have hd : (findAvatarClipForSegment seg pa cur).endFrame -
            (findAvatarClipForSegment seg pa cur).startFrame = seg.durationFrames := by
          rw [hdur.1, hdur.2]; ring
        simp only [buildTimelineAux, hdec, List.map_cons, List.filter_cons,
          Option.isSome_some, if_true]
        rw [hd]
        exact congrArg (List.cons seg.durationFrames) ((ih _).2)

theorem contigItems_start_get :
    ∀ (items : List TimelineItem) (cur : Int), ContigItems cur items →
      ∀ (i : Nat) (h : i < items.length),
        (items.get ⟨i, h⟩).startFrame =
          cur + ((items.take i).map (fun it => it.durationFrames)).sum := by
  intro items
  induction items with
  | nil => intro cur _ i h; simp at h
  | cons it rest ih =>
    intro cur hc i h
    obtain ⟨h1, h2, h3⟩ := hc
    rcases i with _ | j
    · simpa using h1
    · have := ih it.endFrame h3 j (by simpa using h)
      simp only [List.get_cons_succ, List.take_succ_cons, List.map_cons,
        List.sum_cons] at this ⊢
      rw [this, h2]
      ring

theorem contigItems_le_start :
    ∀ (items : List TimelineItem) (cur : Int), ContigItems cur items →
      (∀ it ∈ items, 0 ≤ it.durationFrames) →
      ∀ it ∈ items, cur ≤ it.startFrame := by
  intro items
  induction items with
  | nil => intro cur _ _ it hit; simp at hit
  | cons hd rest ih =>
    intro cur hc hdur it hit
    obtain ⟨h1, h2, h3⟩ := hc
    rcases List.mem_cons.mp hit with hit | hit
    · subst hit; exact le_of_eq h1.symm
    · have hd0 : 0 ≤ hd.durationFrames := hdur hd (by simp)
      have := ih hd.endFrame h3 (fun x hx => hdur x (by simp [hx])) it hit
      omega

theorem contigItems_strict :
    ∀ (items : List TimelineItem) (cur : Int), ContigItems cur items →
      (∀ it ∈ items, 0 < it.durationFrames) →
      List.Pairwise (fun a b => a.startFrame < b.startFrame) items := by
  intro items
  induction items with
  | nil => intro cur _ _; exact List.Pairwise.nil
  | cons hd rest ih =>
    intro cur hc hdur
    obtain ⟨h1, h2, h3⟩ := hc
    refine List.pairwise_cons.mpr ⟨?_, ih hd.endFrame h3
      (fun x hx => hdur x (by simp [hx]))⟩
    intro it hit
    have hd0 : 0 < hd.durationFrames := hdur hd (by simp)
    have := contigItems_le_start rest hd.endFrame h3
      (fun x hx => le_of_lt (hdur x (by simp [hx]))) it hit
    omega

theorem enumFrom_filter_snd_map {α β : Type} (pred : α → Bool) (f : α → β) :
    ∀ (l : List α) (n : Nat),
      ((List.enumFrom n l).filter (fun p => pred p.2)).map (fun p => f p.2) =
        (l.filter pred).map f := by
  intro l
  induction l with
  | nil => intro n; simp
  | cons x xs ih =>
    intro n
    simp only [List.enumFrom, List.filter_cons]
    by_cases hx : pred x
    · simp only [hx, if_true, List.map_cons, ih]
    · simp only [hx, Bool.false_eq_true, if_false, ih]

/-! ## C1: timeline frame structure -/

/-- Claim C1 (amended): the timeline's total duration equals the sum of the
item durations and each item's `startFrame` equals the running sum of the
durations of all earlier items (so items are contiguous); the `startFrame`s
are strictly increasing whenever every emitted item has positive duration
(zero-duration segments yield equal consecutive `startFrame`s). -/
theorem buildTimeline_frame_structure (input : TimelineBuildInput)
    (options : TimelineBuilderOptions) :
    (buildTimeline input options).totalDurationFrames =
      ((buildTimeline input options).items.map (fun it => it.durationFrames)).sum ∧
    (∀ (i : Nat) (h : i < (buildTimeline input options).items.length),
      ((buildTimeline input options).items.get ⟨i, h⟩).startFrame =
        (((buildTimeline input options).items.take i).map
          (fun it => it.durationFrames)).sum) ∧
    ((∀ it ∈ (buildTimeline input options).items, 0 < it.durationFrames) →
      List.Pairwise (fun a b => a.startFrame < b.startFrame)
        (buildTimeline input options).items) := by
  have hcontig := buildTimelineAux_contig input.layoutDecisions input.processedAvatar
    options.config input.parsedScript.segments.enum 0
  have htotal := buildTimelineAux_total input.layoutDecisions input.processedAvatar
    options.config input.parsedScript.segments.enum 0
  refine ⟨?_, ?_, ?_⟩
  · simpa [buildTimeline] using htotal
  · intro i h
    simpa using contigItems_start_get _ 0 hcontig i h
  · intro hpos
    exact contigItems_strict _ 0 hcontig hpos

/-- A zero-duration script segment (as the segmenter's proportional rounding
can produce). -/
def cexZeroSegment (n : String) : ScriptSegment :=
  { id := n, text := "x", words := [], startFrame := 0, endFrame := 0,
    durationFrames := 0, keywords := [], importance := .low, hasKeyPhrase := false }

def cexNoneTransition : TransitionConfig :=
  { type := .none, durationFrames := 0, sfx := Option.none, sfxVolume := 1/2 }

def cexDecision (n : String) : LayoutDecision :=
  { segmentId := n, layout := .A, helperAsset := Option.none,
    textOverlay := Option.none, transition := cexNoneTransition, reasoning := "r" }

def cexAvatar : ProcessedAvatar :=
  { originalDurationFrames := 100, processedDurationFrames := 100,
    silenceRegions := [], clips := [⟨"avatar.mp4", 0, 100, 0, 100, 1⟩] }

def cexConfig : ProjectConfig :=
  { fps := 30, width := 1080, height := 1920,
    settings := { silenceThreshold := 1/2, minClipDuration := 1,
                  transitionSfxProbability := 7/10, musicVolume := -20,
                  captionStyle := "tiktok" } }

/-- Build input with two zero-duration segments, both with decisions. -/
def cexZeroInput : TimelineBuildInput :=
  { parsedScript :=
      { segments := [cexZeroSegment "segment-1", cexZeroSegment "segment-2"],
        totalWords := 2, totalEstimatedFrames := 0, allKeywords := [],
        keyPhrases := [] },
    processedAvatar := cexAvatar,
    layoutDecisions := [cexDecision "segment-1", cexDecision "segment-2"] }

/-- Counterexample for C1 as stated: with two zero-duration segments the two
items both start at frame 0, so the `startFrame`s are not strictly
increasing. -/
theorem buildTimeline_not_strictly_increasing :
    ((buildTimeline cexZeroInput ⟨cexConfig⟩).items.map (fun it => it.startFrame))
        = [0, 0] ∧
    ¬ List.Pairwise (fun a b => a.startFrame < b.startFrame)
        (buildTimeline cexZeroInput ⟨cexConfig⟩).items := by
  constructor
  · rfl
  · intro hpw
    have h2 : List.Pairwise (fun (a b : Int) => a < b)
        ((buildTimeline cexZeroInput ⟨cexConfig⟩).items.map
          (fun it => it.startFrame)) := by
      rw [List.pairwise_map]
      exact hpw
    rw [show ((buildTimeline cexZeroInput ⟨cexConfig⟩).items.map
      (fun it => it.startFrame)) = [0, 0] from rfl] at h2
    have := (List.pairwise_cons.mp h2).1 0 (by simp)
    exact lt_irrefl 0 this

/-- A positive-duration segment for the C1 witness. -/
def posSegment (n : String) (s e : Int) : ScriptSegment :=
  { id := n, text := "x", words := [], startFrame := s, endFrame := e,
    durationFrames := e - s, keywords := [], importance := .low,
    hasKeyPhrase := false }

/-- Build input with two positive-duration segments, both with decisions. -/
def posInput : TimelineBuildInput :=
  { parsedScript :=
      { segments := [posSegment "segment-1" 0 10, posSegment "segment-2" 10 30],
        totalWords := 2, totalEstimatedFrames := 30, allKeywords := [],
        keyPhrases := [] },
    processedAvatar := cexAvatar,
    layoutDecisions := [cexDecision "segment-1", cexDecision "segment-2"] }

/-- Witness for the amended C1 at an input with positive durations. -/
theorem buildTimeline_frame_structure_witness :
    (∀ it ∈ (buildTimeline posInput ⟨cexConfig⟩).items,
      0 < it.durationFrames) ∧
    List.Pairwise (fun a b => a.startFrame < b.startFrame)
      (buildTimeline posInput ⟨cexConfig⟩).items ∧
    (buildTimeline posInput ⟨cexConfig⟩).totalDurationFrames =
      ((buildTimeline posInput ⟨cexConfig⟩).items.map
        (fun it => it.durationFrames)).sum :=
  ⟨by decide,
    (buildTimeline_frame_structure posInput ⟨cexConfig⟩).2.2 (by decide),
    (buildTimeline_frame_structure posInput ⟨cexConfig⟩).1⟩

/-! ## C10: segments without decisions are skipped -/

/-- Claim C10: a segment with no layout decision produces no timeline item;
the emitted items are exactly the decided segments in order, the cursor
advances only for emitted items (items stay contiguous from 0), and the
total duration counts only the decided segments. -/
theorem buildTimeline_skips_undecided (input : TimelineBuildInput)
    (options : TimelineBuilderOptions) :
    (buildTimeline input options).items.map (fun it => it.segmentId) =
      (input.parsedScript.segments.filter
        (fun s => (findDecision input.layoutDecisions s.id).isSome)).map
        (fun s => s.id) ∧
    (buildTimeline input options).totalDurationFrames =
      ((input.parsedScript.segments.filter
        (fun s => (findDecision input.layoutDecisions s.id).isSome)).map
        (fun s => s.durationFrames)).sum ∧
    ContigItems 0 (buildTimeline input options).items := by
  obtain ⟨hids, hdurs⟩ := buildTimelineAux_shape input.layoutDecisions
    input.processedAvatar options.config input.parsedScript.segments.enum 0
  have htotal := buildTimelineAux_total input.layoutDecisions input.processedAvatar
    options.config input.parsedScript.segments.enum 0
  have hcontig := buildTimelineAux_contig input.layoutDecisions input.processedAvatar
    options.config input.parsedScript.segments.enum 0
  refine ⟨?_, ?_, hcontig⟩
  · rw [show (buildTimeline input options).items =
      (buildTimelineAux input.layoutDecisions input.processedAvatar options.config
        input.parsedScript.segments.enum 0).1 from rfl]
    rw [hids, List.enum]
    exact enumFrom_filter_snd_map
      (fun s => (findDecision input.layoutDecisions s.id).isSome) (fun s => s.id)
      input.parsedScript.segments 0
  · rw [show (buildTimeline input options).totalDurationFrames =
      (buildTimelineAux input.layoutDecisions input.processedAvatar options.config
        input.parsedScript.segments.enum 0).2 from rfl]
    rw [htotal, hdurs, List.enum]
    rw [enumFrom_filter_snd_map
      (fun s => (findDecision input.layoutDecisions s.id).isSome)
      (fun s => s.durationFrames) input.parsedScript.segments 0]
    ring

/-! ## C7: caption and overlay rebasing -/

theorem snd_mem_of_mem_enumFrom {α : Type} :
    ∀ (l : List α) (n : Nat) (p : Nat × α), p ∈ List.enumFrom n l → p.2 ∈ l := by
  intro l
  induction l with
  | nil => intro n p hp; simp at hp
  | cons x xs ih =>
    intro n p hp
    rcases List.mem_cons.mp hp with hp | hp
    · subst hp; simp
    · exact List.mem_cons.mpr (Or.inr (ih (n + 1) p hp))

theorem buildTimelineAux_caption_overlay (d : List LayoutDecision)
    (pa : ProcessedAvatar) (cfg : ProjectConfig) :
    ∀ (l : List (Nat × ScriptSegment)) (cur : Int),
      ∀ it ∈ (buildTimelineAux d pa cfg l cur).1,
        ∃ p ∈ l, ∃ dec, findDecision d p.2.id = some dec ∧
          it.segmentId = p.2.id ∧
          it.durationFrames = p.2.durationFrames ∧
          it.caption.words = p.2.words.map (fun w =>
            { text := w.text
              startFrame := it.startFrame +
                round (((w.startFrame - p.2.startFrame : Int) : ℚ) *
                  ((it.durationFrames : ℚ) /
                    ((max (p.2.endFrame - p.2.startFrame) 1 : Int) : ℚ)))
              endFrame := it.startFrame +
                round (((w.endFrame - p.2.startFrame : Int) : ℚ) *
                  ((it.durationFrames : ℚ) /
                    ((max (p.2.endFrame - p.2.startFrame) 1 : Int) : ℚ))) }) ∧
          it.textOverlay = dec.textOverlay.map (fun ov =>
            { ov with
              startFrame := ov.startFrame - p.2.startFrame + it.startFrame
              endFrame := ov.endFrame - p.2.startFrame + it.startFrame }) := by
  intro l
  induction l with
  | nil => intro cur it hit; simp [buildTimelineAux] at hit
  | cons p rest ih =>
    intro cur it hit
    obtain ⟨i, seg⟩ := p
    rcases hdec : findDecision d seg.id with _ | dec
    · simp only [buildTimelineAux, hdec] at hit
      obtain ⟨q, hq, rest_spec⟩ := ih cur it hit
      exact ⟨q, by simp [hq], rest_spec⟩
    · have hclip := findAvatarClipForSegment_duration seg pa cur
      simp only [buildTimelineAux, hdec] at hit
      rcases List.mem_cons.mp hit with hit | hit
      · subst hit
        refine ⟨(i, seg), by simp, dec, hdec, rfl, ?_, ?_, ?_⟩
        · show (findAvatarClipForSegment seg pa cur).endFrame -
            (findAvatarClipForSegment seg pa cur).startFrame = seg.durationFrames
          rw [hclip.1, hclip.2]; ring
        · have hdur : (findAvatarClipForSegment seg pa cur).endFrame -
              (findAvatarClipForSegment seg pa cur).startFrame = seg.durationFrames := by
            rw [hclip.1, hclip.2]; ring
          show (buildCaptionData seg cur cfg).words = _
          simp only [buildCaptionData, hdur]
        · rfl
      · obtain ⟨q, hq, rest_spec⟩ := ih _ it hit
        exact ⟨q, by simp [hq], rest_spec⟩

/-- Claim C7 (amended): each timeline item rebases its segment's per-word
caption timings by the uniform scale factor (item duration ÷
`max(original segment duration, 1)`), but rebases the segment's text overlay
by the constant offset `item.startFrame - segment.startFrame` only, without
scaling. -/
theorem buildTimeline_caption_overlay_rebase (input : TimelineBuildInput)
    (options : TimelineBuilderOptions) :
    ∀ it ∈ (buildTimeline input options).items,
      ∃ seg ∈ input.parsedScript.segments,
        ∃ dec, findDecision input.layoutDecisions seg.id = some dec ∧
          it.segmentId = seg.id ∧
          it.durationFrames = seg.durationFrames ∧
          it.caption.words = seg.words.map (fun w =>
            { text := w.text
              startFrame := it.startFrame +
                round (((w.startFrame - seg.startFrame : Int) : ℚ) *
                  ((it.durationFrames : ℚ) /
                    ((max (seg.endFrame - seg.startFrame) 1 : Int) : ℚ)))
              endFrame := it.startFrame +
                round (((w.endFrame - seg.startFrame : Int) : ℚ) *
                  ((it.durationFrames : ℚ) /
                    ((max (seg.endFrame - seg.startFrame) 1 : Int) : ℚ))) }) ∧
          it.textOverlay = dec.textOverlay.map (fun ov =>
            { ov with
              startFrame := ov.startFrame - seg.startFrame + it.startFrame
              endFrame := ov.endFrame - seg.startFrame + it.startFrame }) := by
  intro it hit
  obtain ⟨p, hp, dec, hdec, hspec⟩ :=
    buildTimelineAux_caption_overlay input.layoutDecisions input.processedAvatar
      options.config input.parsedScript.segments.enum 0 it hit
  exact ⟨p.2, snd_mem_of_mem_enumFrom input.parsedScript.segments 0 p hp,
    dec, hdec, hspec⟩

/-- A segment whose `durationFrames` (20) differs from its original span
`endFrame - startFrame` (10), as after trimming re-alignment. -/
def cexOverlaySegment : ScriptSegment :=
  { id := "segment-1", text := "x", words := [⟨"x", 2, 8, false⟩],
    startFrame := 0, endFrame := 10, durationFrames := 20, keywords := [],
    importance := .low, hasKeyPhrase := false }

def cexOverlay : TextOverlay :=
  { primary := "P", secondary := Option.none, style := "s", animation := .pop,
    startFrame := 2, endFrame := 8 }

def cexOverlayDecision : LayoutDecision :=
  { segmentId := "segment-1", layout := .A, helperAsset := Option.none,
    textOverlay := some cexOverlay, transition := cexNoneTransition,
    reasoning := "r" }

def cexOverlayInput : TimelineBuildInput :=
  { parsedScript :=
      { segments := [cexOverlaySegment], totalWords := 1,
        totalEstimatedFrames := 20, allKeywords := [], keyPhrases := [] },
    processedAvatar := cexAvatar,
    layoutDecisions := [cexOverlayDecision] }

/-- Counterexample for C7 as stated: with item duration 20 over an original
segment span of 10, the claimed uniform scaling would place the overlay's
start (segment-relative frame 2) at output frame `0 + round(2 · 20/10) = 4`,
but the built timeline carries the overlay at `(2, 8)` — a plain offset copy
with no scaling. -/
theorem buildTimeline_overlay_not_scaled :
    ((buildTimeline cexOverlayInput ⟨cexConfig⟩).items.map
      (fun it => it.durationFrames)) = [20] ∧
    cexOverlaySegment.endFrame - cexOverlaySegment.startFrame = 10 ∧
    ((buildTimeline cexOverlayInput ⟨cexConfig⟩).items.map
      (fun it => it.textOverlay.map (fun o => (o.startFrame, o.endFrame)))) =
      [some (2, 8)] ∧
    round ((((2 : Int) - (0 : Int) : Int) : ℚ) *
      (((20 : Int) : ℚ) / (((10 : Int) - (0 : Int) : Int) : ℚ))) = 4 ∧
    (2 : Int) ≠ 0 + 4 := by
  refine ⟨rfl, rfl, rfl, ?_, by decide⟩
  push_cast
  norm_num [round_eq]

/-- Witness for the amended C7 at a concrete input. -/
theorem buildTimeline_caption_overlay_rebase_witness :
    ∃ it ∈ (buildTimeline cexOverlayInput ⟨cexConfig⟩).items,
      ∃ seg ∈ cexOverlayInput.parsedScript.segments,
        ∃ dec, findDecision cexOverlayInput.layoutDecisions seg.id = some dec ∧
          it.segmentId = seg.id ∧
          it.durationFrames = seg.durationFrames ∧
          it.caption.words = seg.words.map (fun w =>
            { text := w.text
              startFrame := it.startFrame +
                round (((w.startFrame - seg.startFrame : Int) : ℚ) *
                  ((it.durationFrames : ℚ) /
                    ((max (seg.endFrame - seg.startFrame) 1 : Int) : ℚ)))
              endFrame := it.startFrame +
                round (((w.endFrame - seg.startFrame : Int) : ℚ) *
                  ((it.durationFrames : ℚ) /
                    ((max (seg.endFrame - seg.startFrame) 1 : Int) : ℚ))) }) ∧
          it.textOverlay = dec.textOverlay.map (fun ov =>
            { ov with
              startFrame := ov.startFrame - seg.startFrame + it.startFrame
              endFrame := ov.endFrame - seg.startFrame + it.startFrame }) := by
  rcases hres : (buildTimeline cexOverlayInput ⟨cexConfig⟩).items with _ | ⟨it0, rest⟩
  · exact absurd hres (by decide)
  · exact ⟨it0, by simp,
      buildTimeline_caption_overlay_rebase cexOverlayInput ⟨cexConfig⟩ it0
        (by rw [hres]; simp)⟩

/-! ## C3: layout and text-overlay decision mapping -/

theorem decideTextOverlay_isSome (segment : ScriptSegment) (layout : LayoutType)
    (m : Option AssetMatch) (opts : LayoutPlannerOptions) :
    (decideTextOverlay segment layout m opts).isSome ↔
      (layout = LayoutType.A ∧
        (segment.hasKeyPhrase = true ∨ segment.importance = .high) ∧
        (extractDisplayPhrase segment).isSome) := by
  unfold decideTextOverlay
  by_cases hA : layout = LayoutType.A
  · by_cases hk : segment.hasKeyPhrase
    · simp only [hA, hk]
      cases hph : extractDisplayPhrase segment <;> simp [hph]
    · by_cases hh : segment.importance = ImportanceLevel.high
      · simp only [hA, hk, hh]
        cases hph : extractDisplayPhrase segment <;> simp [hph]
      · simp [hA, hk, hh]
  · simp [hA]

/-- Claim C3 (amended): the layout mapping is exactly as claimed (match and
high importance → C; match → B; otherwise A), but a text overlay is attached
if and only if there is no match, the segment has a key phrase **or** has
high importance, and `extractDisplayPhrase` finds a displayable phrase.  In
particular a high-importance segment with no match and no key phrase does
receive an overlay (when a phrase is extractable), and a key-phrase segment
with no extractable phrase receives none. -/
theorem planner_layout_overlay_decision (segment : ScriptSegment)
    (m : Option AssetMatch) (opts : LayoutPlannerOptions) :
    (decideLayout segment m).1 =
      (if m.isSome then
        (if segment.importance = .high then LayoutType.C else LayoutType.B)
       else LayoutType.A) ∧
    ((decideTextOverlay segment (decideLayout segment m).1 m opts).isSome ↔
      (m = Option.none ∧
        (segment.hasKeyPhrase = true ∨ segment.importance = .high) ∧
        (extractDisplayPhrase segment).isSome)) := by
  have hlay : (decideLayout segment m).1 =
      (if m.isSome then
        (if segment.importance = .high then LayoutType.C else LayoutType.B)
       else LayoutType.A) := by
    rcases m with _ | am
    · simp only [decideLayout, Option.isSome_none, Bool.false_eq_true, if_false]
      by_cases hk : segment.hasKeyPhrase <;> simp [hk]
    · simp only [decideLayout, Option.isSome_some, if_true]
      by_cases hh : segment.importance = ImportanceLevel.high <;> simp [hh]
  have hAiff : ((decideLayout segment m).1 = LayoutType.A) ↔ m = Option.none := by
    rcases m with _ | am
    · simp [hlay]
    · rw [hlay]
      by_cases hh : segment.importance = ImportanceLevel.high <;> simp [hh]
  refine ⟨hlay, ?_⟩
  rw [decideTextOverlay_isSome segment (decideLayout segment m).1 m opts, hAiff]

/-- Planner options used by the concrete planner evaluations. -/
def plannerOpts : LayoutPlannerOptions :=
  { fps := 30, transitionDurationFrames := 8, transitionSfxProbability := 7/10,
    sfxSources := ⟨Option.none, Option.none, Option.none⟩,
    defaultTextOverlayStyle := "style" }

/-- A high-importance segment with two keywords, no key phrase, no quotes
and no digits in its text. -/
def cexHighSegment : ScriptSegment :=
  { id := "segment-1", text := "gadget widget gizmo", words := [],
    startFrame := 0, endFrame := 100, durationFrames := 100,
    keywords := ["gadget", "widget"], importance := .high,
    hasKeyPhrase := false }

/-- Counterexample for C3 as stated: a segment with no asset match and no
key phrase (but high importance) gets layout A **with** a text overlay,
refuting "a segment with no match and no key phrase never receives a text
overlay". -/
theorem planner_overlay_no_keyphrase_cex :
    cexHighSegment.hasKeyPhrase = false ∧
    (decideLayout cexHighSegment Option.none).1 = LayoutType.A ∧
    (decideTextOverlay cexHighSegment (decideLayout cexHighSegment Option.none).1
      Option.none plannerOpts).isSome = true := by
  refine ⟨rfl, rfl, ?_⟩
  decide

/-! ## C9: the transition choice depends on ambient randomness -/

/-- Claim C9 is a code bug: `decideTransition` draws from the ambient
`Math.random()` stream rather than an injectable seeded generator, so two
runs over identical inputs can disagree — here an A→A transition comes out
`cut` when the ambient draw is 0.5 and `fade` when it is 0.3. -/
theorem decideTransition_ambient_divergence :
    (decideTransition .A .A false plannerOpts [5/10, 1]).1.type =
      TransitionType.cut ∧
    (decideTransition .A .A false plannerOpts [3/10, 1]).1.type =
      TransitionType.fade ∧
    TransitionType.cut ≠ TransitionType.fade := by
  refine ⟨?_, ?_, by decide⟩ <;>
    · simp only [decideTransition, nextRandom]
      norm_num

/-! ## C4: relevance score formula and bounds -/

theorem relevancePairsFold_counts (skw : String) :
    ∀ (akw : List String) (d p : Nat) (mk : List String),
      (relevancePairsFold akw (d, p, mk) skw).1 =
        d + akw.countP (fun a => skw = a) ∧
      (relevancePairsFold akw (d, p, mk) skw).2.1 =
        p + akw.countP (fun a =>
          !(decide (skw = a)) && (jsIncludes skw a || jsIncludes a skw)) := by
  intro akw
  induction akw with
  | nil => intro d p mk; simp [relevancePairsFold]
  | cons a rest ih =>
    intro d p mk
    by_cases heq : skw = a
    · have hstep : relevancePairsFold (a :: rest) (d, p, mk) skw =
          relevancePairsFold rest (d + 1, p, mk ++ [skw]) skw := by
        simp [relevancePairsFold, heq]
      rw [hstep]
      obtain ⟨h1, h2⟩ := ih (d + 1) p (mk ++ [skw])
      rw [h1, h2]
      constructor
      · rw [List.countP_cons]
        simp [heq]
        omega
      · rw [List.countP_cons]
        simp [heq]
    · by_cases hinc : jsIncludes skw a = true ∨ jsIncludes a skw = true
      · have hstep : relevancePairsFold (a :: rest) (d, p, mk) skw =
            relevancePairsFold rest
              (d, p + 1, if mk.contains skw then mk else mk ++ [skw]) skw := by
          simp [relevancePairsFold, heq, hinc]
        rw [hstep]
        obtain ⟨h1, h2⟩ := ih d (p + 1) (if mk.contains skw then mk else mk ++ [skw])
        rw [h1, h2]
        constructor
        · rw [List.countP_cons]
          simp [heq]
        · rw [List.countP_cons]
          simp [heq, hinc]
          omega
      · have hstep : relevancePairsFold (a :: rest) (d, p, mk) skw =
            relevancePairsFold rest (d, p, mk) skw := by
          simp [relevancePairsFold, heq, hinc]
        rw [hstep]
        obtain ⟨h1, h2⟩ := ih d p mk
        rw [h1, h2]
        constructor
        · rw [List.countP_cons]
          simp [heq]
        · rw [List.countP_cons]
          simp [heq, hinc]

theorem relevanceFold_counts (akw : List String) :
    ∀ (skws : List String) (d p : Nat) (mk : List String),
      (skws.foldl (relevancePairsFold akw) (d, p, mk)).1 =
        d + (skws.map (fun s => akw.countP (fun a => s = a))).sum ∧
      (skws.foldl (relevancePairsFold akw) (d, p, mk)).2.1 =
        p + (skws.map (fun s => akw.countP (fun a =>
          !(decide (s = a)) && (jsIncludes s a || jsIncludes a s)))).sum := by
  intro skws
  induction skws with
  | nil => intro d p mk; simp
  | cons s rest ih =>
    intro d p mk
    rcases hstep : relevancePairsFold akw (d, p, mk) s with ⟨d2, p2, mk2⟩
    obtain ⟨hd2, hp2⟩ := relevancePairsFold_counts s akw d p mk
    rw [hstep] at hd2 hp2
    simp only at hd2 hp2
    obtain ⟨h1, h2⟩ := ih d2 p2 mk2
    rw [List.foldl_cons, hstep]
    rw [h1, h2, hd2, hp2]
    simp only [List.map_cons, List.sum_cons]
    omega

/-- Claim C4 (amended): the relevance score equals
`min(0.6·direct + 0.25·partial + 0.15·title, 1)` where `direct` is the
keyword-equality pair count over `max(|segment.keywords|, |asset.keywords|, 1)`,
`partial` is the substring-either-way pair count at half weight over the same
denominator, and `title` is the number of asset-title words of length ≥ 4
occurring in the segment text divided by the **total** number of title words
(minimum 1) — not by the number of long title words; consequently the score
always lies in `[0, 1]`. -/
theorem calculateAssetRelevance_score (segment : ScriptSegment)
    (asset : HelperAsset) :
    (calculateAssetRelevance segment asset).1 =
      jsMin (((((segment.keywords.map (fun s =>
            asset.keywords.countP (fun a => s = a))).sum : Nat) : ℚ) /
            ((max (max segment.keywords.length asset.keywords.length) 1 : Nat) : ℚ))
            * (6/10) +
          (((((segment.keywords.map (fun s => asset.keywords.countP (fun a =>
              !(decide (s = a)) && (jsIncludes s a || jsIncludes a s)))).sum : Nat) : ℚ)
              * (5/10)) /
            ((max (max segment.keywords.length asset.keywords.length) 1 : Nat) : ℚ))
            * (25/100) +
          ((((jsSplitWs (jsToLower asset.title)).countP (fun w =>
              w.length ≥ 4 && jsIncludes (jsToLower segment.text) w) : Nat) : ℚ) /
            (jsMax (((jsSplitWs (jsToLower asset.title)).length : Nat) : ℚ) 1))
            * (15/100)) 1 ∧
    0 ≤ (calculateAssetRelevance segment asset).1 ∧
    (calculateAssetRelevance segment asset).1 ≤ 1 := by
  rcases hfold : segment.keywords.foldl (relevancePairsFold asset.keywords)
      (0, 0, []) with ⟨d, p, mk⟩
  obtain ⟨hd, hp⟩ := relevanceFold_counts asset.keywords segment.keywords 0 0 []
  rw [hfold] at hd hp
  simp only [Nat.zero_add] at hd hp
  have hscore : (calculateAssetRelevance segment asset).1 =
      jsMin (((d : Nat) : ℚ) /
            ((max (max segment.keywords.length asset.keywords.length) 1 : Nat) : ℚ)
            * (6/10) +
          (((p : Nat) : ℚ) * (5/10)) /
            ((max (max segment.keywords.length asset.keywords.length) 1 : Nat) : ℚ)
            * (25/100) +
          (((jsSplitWs (jsToLower asset.title)).countP (fun w =>
              w.length ≥ 4 && jsIncludes (jsToLower segment.text) w) : Nat) : ℚ) /
            (jsMax (((jsSplitWs (jsToLower asset.title)).length : Nat) : ℚ) 1)
            * (15/100)) 1 := by
    simp only [calculateAssetRelevance, hfold]
  have hnonneg : (0 : ℚ) ≤
      ((d : Nat) : ℚ) /
          ((max (max segment.keywords.length asset.keywords.length) 1 : Nat) : ℚ)
          * (6/10) +
        (((p : Nat) : ℚ) * (5/10)) /
          ((max (max segment.keywords.length asset.keywords.length) 1 : Nat) : ℚ)
          * (25/100) +
        (((jsSplitWs (jsToLower asset.title)).countP (fun w =>
            w.length ≥ 4 && jsIncludes (jsToLower segment.text) w) : Nat) : ℚ) /
          (jsMax (((jsSplitWs (jsToLower asset.title)).length : Nat) : ℚ) 1)
          * (15/100) := by
    have hden1 : (0 : ℚ) ≤
        ((max (max segment.keywords.length asset.keywords.length) 1 : Nat) : ℚ) :=
      Nat.cast_nonneg _
    have hden2 : (0 : ℚ) ≤ jsMax (((jsSplitWs (jsToLower asset.title)).length : Nat) : ℚ) 1 := by
      rw [jsMax_eq_max]
      exact le_trans zero_le_one (le_max_right _ _)
    have h1 : (0 : ℚ) ≤ ((d : Nat) : ℚ) := Nat.cast_nonneg d
    have h2 : (0 : ℚ) ≤ ((p : Nat) : ℚ) := Nat.cast_nonneg p
    have h3 : (0 : ℚ) ≤ (((jsSplitWs (jsToLower asset.title)).countP (fun w =>
        w.length ≥ 4 && jsIncludes (jsToLower segment.text) w) : Nat) : ℚ) :=
      Nat.cast_nonneg _
    have t1 : (0 : ℚ) ≤ ((d : Nat) : ℚ) /
        ((max (max segment.keywords.length asset.keywords.length) 1 : Nat) : ℚ)
        * (6/10) :=
      mul_nonneg (div_nonneg h1 hden1) (by norm_num)
    have t2 : (0 : ℚ) ≤ (((p : Nat) : ℚ) * (5/10)) /
        ((max (max segment.keywords.length asset.keywords.length) 1 : Nat) : ℚ)
        * (25/100) :=
      mul_nonneg (div_nonneg (mul_nonneg h2 (by norm_num)) hden1) (by norm_num)
    have t3 : (0 : ℚ) ≤ (((jsSplitWs (jsToLower asset.title)).countP (fun w =>
        w.length ≥ 4 && jsIncludes (jsToLower segment.text) w) : Nat) : ℚ) /
        (jsMax (((jsSplitWs (jsToLower asset.title)).length : Nat) : ℚ) 1)
        * (15/100) :=
      mul_nonneg (div_nonneg h3 hden2) (by norm_num)
    linarith
  refine ⟨?_, ?_, ?_⟩
  · rw [hscore, hd, hp]
  · rw [hscore, jsMin_eq_min]
    exact le_min hnonneg (by norm_num)
  · rw [hscore, jsMin_eq_min]
    exact min_le_right _ _

/-- The title component read literally from the spec sentence "fraction of
asset-title words (length ≥ 4) that appear verbatim in the segment text":
the fraction, among title words of length ≥ 4, of those appearing in the
text.  Defined only to compare the spec's wording against the code. -/
def specTitleFraction (segment : ScriptSegment) (asset : HelperAsset) : ℚ :=
  let titleWords := jsSplitWs (jsToLower asset.title)
  let longWords := titleWords.filter (fun w => w.length ≥ 4)
  ((longWords.countP (fun w => jsIncludes (jsToLower segment.text) w) : Nat) : ℚ) /
    jsMax ((longWords.length : Nat) : ℚ) 1

/-- The composite score with the spec's literal title fraction; direct and
partial components as in the code. -/
def specRelevanceScore (segment : ScriptSegment) (asset : HelperAsset) : ℚ :=
  let maxPossible : Nat := max (max segment.keywords.length asset.keywords.length) 1
  let direct : ℚ := (((segment.keywords.map (fun s =>
    asset.keywords.countP (fun a => s = a))).sum : Nat) : ℚ) / (maxPossible : ℚ)
  let part : ℚ := ((((segment.keywords.map (fun s =>
    asset.keywords.countP (fun a =>
      !(decide (s = a)) && (jsIncludes s a || jsIncludes a s)))).sum : Nat) : ℚ)
    * (5/10)) / (maxPossible : ℚ)
  jsMin (direct * (6/10) + part * (25/100) +
    specTitleFraction segment asset * (15/100)) 1

def cexTitleSegment : ScriptSegment :=
  { id := "s", text := "the gadget is here", words := [], startFrame := 0,
    endFrame := 0, durationFrames := 0, keywords := [], importance := .low,
    hasKeyPhrase := false }

def cexTitleAsset : HelperAsset :=
  { type := .image, src := "x.png", title := "A Gadget", keywords := [],
    fit := .cover }

/-- Counterexample for C4 as stated: for the title "A Gadget" (one word of
length ≥ 4, two words in total) and a text containing "gadget", the code
scores `0.15 · 1/2 = 3/40`, while the spec's literal "fraction of asset-title
words of length ≥ 4 that appear" would give `0.15 · 1/1 = 3/20`. -/
theorem calculateAssetRelevance_title_denominator_cex :
    (calculateAssetRelevance cexTitleSegment cexTitleAsset).1 = 3/40 ∧
    specRelevanceScore cexTitleSegment cexTitleAsset = 3/20 ∧
    ((3 : ℚ)/40) ≠ 3/20 := by
  refine ⟨?_, ?_, by norm_num⟩
  · have h1 : (jsSplitWs (jsToLower "A Gadget")).countP (fun w =>
        w.length ≥ 4 && jsIncludes (jsToLower "the gadget is here") w) = 1 := by decide
    have h2 : (jsSplitWs (jsToLower "A Gadget")).length = 2 := by decide
    simp only [calculateAssetRelevance, cexTitleSegment, cexTitleAsset,
      List.foldl_nil, h1, h2, List.length_nil]
    norm_num [jsMin, jsMax]
  · have h1 : ((jsSplitWs (jsToLower "A Gadget")).filter (fun w =>
        w.length ≥ 4)).countP (fun w =>
          jsIncludes (jsToLower "the gadget is here") w) = 1 := by decide
    have h2 : ((jsSplitWs (jsToLower "A Gadget")).filter (fun w =>
        w.length ≥ 4)).length = 1 := by decide
    simp only [specRelevanceScore, specTitleFraction, cexTitleSegment, cexTitleAsset,
      List.foldl_nil, h1, h2, List.length_nil]
    norm_num [jsMin, jsMax]

/-! ## C2: word-count bounds of the sentence grouping -/

/-- A sentence as `splitIntoSentences` produces them: nonempty, trimmed
(no leading or trailing whitespace). -/
def cleanSentence (s : String) : Bool :=
  match s.data with
  | [] => false
  | c :: cs => !c.isWhitespace && !(cs.getLastD c).isWhitespace

theorem runsAux_nil_eq (keep : Char → Bool) (cur : List Char) :
    runsAux keep [] cur = if cur.isEmpty then [] else [cur.reverse] := rfl

theorem runsAux_cons_eq (keep : Char → Bool) (c : Char) (cs cur : List Char) :
    runsAux keep (c :: cs) cur =
      if keep c then runsAux keep cs (c :: cur)
      else if cur.isEmpty then runsAux keep cs []
      else cur.reverse :: runsAux keep cs [] := rfl

theorem runsAux_append_sep (keep : Char → Bool) (sep : Char)
    (hsep : keep sep = false) :
    ∀ (xs ys cur : List Char),
      runsAux keep (xs ++ sep :: ys) cur =
        runsAux keep (xs ++ [sep]) cur ++ runsAux keep ys [] := by
  intro xs
  induction xs with
  | nil =>
    intro ys cur
    simp only [List.nil_append]
    rw [runsAux_cons_eq, runsAux_cons_eq, runsAux_nil_eq]
    have hks : ¬ keep sep = true := by simp [hsep]
    rw [if_neg hks, if_neg hks]
    by_cases hc : cur.isEmpty = true
    · rw [if_pos hc, if_pos hc]
      simp [runsAux_nil_eq]
    · rw [if_neg hc, if_neg hc]
      simp [runsAux_nil_eq]
  | cons c xs ih =>
    intro ys cur
    simp only [List.cons_append]
    rw [runsAux_cons_eq, runsAux_cons_eq]
    by_cases hk : keep c = true
    · rw [if_pos hk, if_pos hk, ih]
    · rw [if_neg hk, if_neg hk]
      by_cases hc : cur.isEmpty = true
      · rw [if_pos hc, if_pos hc, ih]
      · rw [if_neg hc, if_neg hc, ih, List.cons_append]

theorem runsAux_append_sep_last (keep : Char → Bool) (sep : Char)
    (hsep : keep sep = false) :
    ∀ (xs cur : List Char), runsAux keep (xs ++ [sep]) cur = runsAux keep xs cur := by
  intro xs
  induction xs with
  | nil =>
    intro cur
    simp only [List.nil_append]
    rw [runsAux_cons_eq, runsAux_nil_eq]
    have hks : ¬ keep sep = true := by simp [hsep]
    rw [if_neg hks]
    by_cases hc : cur.isEmpty = true
    · rw [if_pos hc]
      have hcur : cur = [] := by simpa using hc
      subst hcur
      rfl
    · rw [if_neg hc]
      simp [runsAux_nil_eq, hc]
  | cons c xs ih =>
    intro cur
    simp only [List.cons_append]
    rw [runsAux_cons_eq, runsAux_cons_eq]
    by_cases hk : keep c = true
    · rw [if_pos hk, if_pos hk, ih]
    · rw [if_neg hk, if_neg hk]
      by_cases hc : cur.isEmpty = true
      · rw [if_pos hc, if_pos hc, ih]
      · rw [if_neg hc, if_neg hc, ih]

theorem jsWordCount_clean (s : String) (h : cleanSentence s = true) :
    jsWordCount s = (runsAux (fun ch => !ch.isWhitespace) s.data []).length := by
  rcases hdata : s.data with _ | ⟨c, cs⟩
  · simp [cleanSentence, hdata] at h
  · simp only [cleanSentence, hdata, Bool.and_eq_true, Bool.not_eq_true'] at h
    obtain ⟨h1, h2⟩ := h
    rw [List.getLastD_eq_getLast?] at h2
    simp [jsWordCount, jsSplitWs, hdata, h1, h2, List.getLastD_eq_getLast?]

theorem cleanSentence_join2 (s1 s2 : String) (h1 : cleanSentence s1 = true)
    (h2 : cleanSentence s2 = true) :
    cleanSentence (s1 ++ " " ++ s2) = true ∧
    jsWordCount (s1 ++ " " ++ s2) = jsWordCount s1 + jsWordCount s2 := by
  rcases hd1 : s1.data with _ | ⟨c1, cs1⟩
  · simp [cleanSentence, hd1] at h1
  rcases hd2 : s2.data with _ | ⟨c2, cs2⟩
  · simp [cleanSentence, hd2] at h2
  have hsp : (" " : String).data = [' '] := rfl
  have hdata : (s1 ++ " " ++ s2).data = c1 :: (cs1 ++ ' ' :: c2 :: cs2) := by
    rw [String.data_append, String.data_append, hd1, hd2, hsp]
    simp
  simp only [cleanSentence, hd1, Bool.and_eq_true, Bool.not_eq_true'] at h1
  simp only [cleanSentence, hd2, Bool.and_eq_true, Bool.not_eq_true'] at h2
  obtain ⟨h1a, h1b⟩ := h1
  obtain ⟨h2a, h2b⟩ := h2
  rw [List.getLastD_eq_getLast?] at h1b h2b
  have hlast : (((c2 :: cs2).getLast?.or cs1.getLast?).getD c1) = cs2.getLast?.getD c2 := by
    simp [List.getLast?_cons]
  have hclean : cleanSentence (s1 ++ " " ++ s2) = true := by
    simp [cleanSentence, hdata, h1a, List.getLastD_eq_getLast?, hlast, h2b]
  refine ⟨hclean, ?_⟩
  rw [jsWordCount_clean _ hclean,
    jsWordCount_clean s1 (by simp [cleanSentence, hd1, h1a, List.getLastD_eq_getLast?, h1b]),
    jsWordCount_clean s2 (by simp [cleanSentence, hd2, h2a, List.getLastD_eq_getLast?, h2b]),
    hdata, hd1, hd2]
  have hkeep : (fun ch => !ch.isWhitespace) ' ' = false := by simp
  have hstep1 : runsAux (fun ch => !ch.isWhitespace) (c1 :: (cs1 ++ ' ' :: c2 :: cs2)) [] =
      runsAux (fun ch => !ch.isWhitespace) ((c1 :: cs1) ++ ' ' :: c2 :: cs2) [] := by
    simp
  rw [hstep1, runsAux_append_sep _ _ hkeep, runsAux_append_sep_last _ _ hkeep,
    List.length_append]

theorem jsJoin_clean :
    ∀ (l : List String), l ≠ [] → (∀ s ∈ l, cleanSentence s = true) →
      cleanSentence (jsJoin l) = true ∧
      jsWordCount (jsJoin l) = (l.map jsWordCount).sum := by
  intro l
  induction l with
  | nil => intro h; exact absurd rfl h
  | cons s rest ih =>
    intro _ hclean
    rcases rest with _ | ⟨t, ts⟩
    · constructor
      · exact hclean s (by simp)
      · simp [jsJoin]
    · have hs := hclean s (by simp)
      obtain ⟨hjc, hjw⟩ := ih (by simp) (fun x hx => hclean x (by simp [hx]))
      have hj : jsJoin (s :: t :: ts) = s ++ " " ++ jsJoin (t :: ts) := rfl
      obtain ⟨hc2, hw2⟩ := cleanSentence_join2 s (jsJoin (t :: ts)) hs hjc
      rw [hj]
      refine ⟨hc2, ?_⟩
      rw [hw2, hjw]
      simp

theorem groupIntoSegmentsAux_bound (minW maxW : Nat) (hmin : 1 ≤ minW) :
    ∀ (sentences cur : List String) (cnt : Nat),
      (∀ s ∈ sentences, cleanSentence s = true) →
      (∀ s ∈ cur, cleanSentence s = true) →
      cnt = (cur.map jsWordCount).sum →
      cnt ≤ minW + maxW - 1 →
      ∀ seg ∈ groupIntoSegmentsAux minW maxW sentences cur cnt,
        seg ∈ sentences ∨ jsWordCount seg ≤ minW + maxW - 1 := by
  intro sentences
  induction sentences with
  | nil =>
    intro cur cnt _ hcur hcnt hbound seg hseg
    simp only [groupIntoSegmentsAux] at hseg
    split at hseg
    · simp at hseg
    · rename_i hne
      rw [List.mem_singleton] at hseg
      subst hseg
      right
      have hcur_ne : cur ≠ [] := by
        intro hnil
        rw [hnil] at hne
        simp at hne
      obtain ⟨_, hw⟩ := jsJoin_clean cur hcur_ne hcur
      rw [hw, ← hcnt]
      exact hbound
  | cons sentence rest ih =>
    intro cur cnt hsent hcur hcnt hbound seg hseg
    have hs_clean := hsent sentence (by simp)
    have hrest_clean : ∀ s ∈ rest, cleanSentence s = true :=
      fun s hs => hsent s (by simp [hs])
    simp only [groupIntoSegmentsAux] at hseg
    by_cases hbig : jsWordCount sentence > maxW
    · rw [if_pos hbig] at hseg
      rw [List.mem_append] at hseg
      rcases hseg with hseg | hseg
      · -- flushed current group
        split at hseg
        · simp at hseg
        · rename_i hne
          rw [List.mem_singleton] at hseg
          subst hseg
          right
          have hcur_ne : cur ≠ [] := by
            intro hnil; rw [hnil] at hne; simp at hne
          obtain ⟨_, hw⟩ := jsJoin_clean cur hcur_ne hcur
          rw [hw, ← hcnt]
          exact hbound
      · rcases List.mem_cons.mp hseg with hseg | hseg
        · subst hseg; left; simp
        · rcases ih [] 0 hrest_clean (by simp) (by simp) (by omega) seg hseg with
            h | h
          · left; simp [h]
          · right; exact h
    · rw [if_neg hbig] at hseg
      by_cases hflush : cnt + jsWordCount sentence > maxW ∧ cnt ≥ minW
      · rw [if_pos (by simpa using hflush)] at hseg
        rcases List.mem_cons.mp hseg with hseg | hseg
        · subst hseg
          right
          have hcur_ne : cur ≠ [] := by
            intro hnil
            rw [hnil] at hcnt
            simp at hcnt
            omega
          obtain ⟨_, hw⟩ := jsJoin_clean cur hcur_ne hcur
          rw [hw, ← hcnt]
          exact hbound
        · rcases ih [sentence] (jsWordCount sentence) hrest_clean
              (by intro x hx; rw [List.mem_singleton] at hx; subst hx; exact hs_clean)
              (by simp) (by omega) seg hseg with h | h
          · left; simp [h]
          · right; exact h
      · rw [if_neg (by simpa using hflush)] at hseg
        have hnew_clean : ∀ s ∈ cur ++ [sentence], cleanSentence s = true := by
          intro x hx
          rcases List.mem_append.mp hx with hx | hx
          · exact hcur x hx
          · rw [List.mem_singleton] at hx; subst hx; exact hs_clean
        have hnew_cnt : cnt + jsWordCount sentence =
            ((cur ++ [sentence]).map jsWordCount).sum := by
          rw [List.map_append, List.sum_append, ← hcnt]
          simp
        have hnew_bound : cnt + jsWordCount sentence ≤ minW + maxW - 1 := by
          omega
        rcases ih (cur ++ [sentence]) (cnt + jsWordCount sentence) hrest_clean
            hnew_clean hnew_cnt hnew_bound seg hseg with h | h
        · left; simp [h]
        · right; exact h

/-- Claim C2 (amended): for clean (trimmed, nonempty) sentences and
`minSegmentWords ≥ 1`, every produced segment is either a single input
sentence (which may exceed the max) or has word count at most
`minSegmentWords + maxSegmentWords − 1`: the `[min, max]` containment of the
claim does not hold — a group still below the minimum may absorb a sentence
past the max, and the final group (or a group flushed before an oversized
sentence) may stay below the minimum. -/
theorem groupIntoSegments_word_bounds (sentences : List String)
    (minW maxW : Nat) (hmin : 1 ≤ minW)
    (hclean : ∀ s ∈ sentences, cleanSentence s = true) :
    ∀ seg ∈ groupIntoSegments sentences minW maxW,
      seg ∈ sentences ∨ jsWordCount seg ≤ minW + maxW - 1 :=
  groupIntoSegmentsAux_bound minW maxW hmin sentences [] 0 hclean
    (by simp) (by simp) (by omega)

def cexLongSentence : String := "b b b b b b b b b b b b b b b b b b b b b b b b b"

/-- Counterexample for C2 as stated: with `minSegmentWords = 5` and
`maxSegmentWords = 25`, the sentences ["a", ⟨25 words⟩] produce a single
26-word segment — outside `[5, 25]` and not a single input sentence. -/
theorem groupIntoSegments_cex :
    groupIntoSegments ["a", cexLongSentence] 5 25 = ["a " ++ cexLongSentence] ∧
    jsWordCount ("a " ++ cexLongSentence) = 26 ∧
    ("a " ++ cexLongSentence) ∉ ["a", cexLongSentence] := by
  refine ⟨by decide, by decide, by decide⟩

/-- Witness for the amended C2 at a concrete input. -/
theorem groupIntoSegments_word_bounds_witness :
    (1 ≤ 5) ∧ (∀ s ∈ ["hello there friend", "a b c d"], cleanSentence s = true) ∧
    (∀ seg ∈ groupIntoSegments ["hello there friend", "a b c d"] 5 8,
      seg ∈ ["hello there friend", "a b c d"] ∨ jsWordCount seg ≤ 5 + 8 - 1) :=
  ⟨by decide, by decide,
    groupIntoSegments_word_bounds ["hello there friend", "a b c d"] 5 8
      (by decide) (by decide)⟩

end AvatarReel
